import Mathlib

/-
Verification development for the deepstream-demo tracking / behavior core.

The two source modules embedded here are src/tracking_manager.py
(class TrackingManager) and src/behavior_analyzer.py (class BehaviorAnalyzer).
Python floats are modelled as exact rationals; Python dicts keyed by tracking
id are modelled as insertion-ordered association lists with first-match lookup
and in-place replacement, which matches dict semantics on the unique-key
states the program produces.  Fields that are pure presentation (the uuid
event id, the ISO-8601 timestamp string, the COCO class-name string) are
represented by their underlying data (the rational timestamp, the class id);
no claim below mentions them.
-/

set_option maxHeartbeats 1000000
set_option linter.unusedVariables false

namespace DSDemo

/-- One entry of a track's position history, mirroring the dict appended in
TrackingManager._update_track. -/
structure PositionSample where
  x : ℚ
  y : ℚ
  timestamp : ℚ
  frame_number : Nat
deriving Repr, DecidableEq, Inhabited

/-- Pixel bounding box as read from obj_meta.rect_params. -/
structure BBox where
  left : ℚ
  top : ℚ
  width : ℚ
  height : ℚ
deriving Repr, DecidableEq, Inhabited

/-- A 2-d point, used for the derived bbox center. -/
structure Center where
  x : ℚ
  y : ℚ
deriving Repr, DecidableEq, Inhabited

/-- The per-track record stored in TrackingManager.active_tracks, mirroring
the track_info dict built in TrackingManager.update_tracks. -/
structure TrackInfo where
  tracking_id : Nat
  class_id : Nat
  confidence : ℚ
  bbox : BBox
  center : Center
  timestamp : ℚ
  frame_number : Nat
deriving Repr, DecidableEq, Inhabited

/-- One detection record of a frame, as read from an NvDsObjectMeta node
(object_id, class_id, confidence, rect_params). -/
structure Detection where
  object_id : Nat
  class_id : Nat
  confidence : ℚ
  bbox : BBox
deriving Repr, DecidableEq, Inhabited

/-- The per-frame input handed to update_tracks: the object-meta list of one
frame plus the frame number carried by the frame metadata. -/
structure Frame where
  detections : List Detection
  frame_num : Nat
deriving Repr, DecidableEq, Inhabited

/-- First-match lookup in an association list: the model of `d.get(k)` /
`d[k]` on a Python dict. -/
def dictLookup {α : Type} (m : List (Nat × α)) (k : Nat) : Option α :=
  match m with
  | [] => none
  | e :: rest => if e.1 = k then some e.2 else dictLookup rest k

/-- In-place insert-or-replace: the model of `d[k] = v` on a Python dict
(replacing keeps the entry's position, inserting appends). -/
def dictInsert {α : Type} (m : List (Nat × α)) (k : Nat) (v : α) : List (Nat × α) :=
  match m with
  | [] => [(k, v)]
  | e :: rest => if e.1 = k then (k, v) :: rest else e :: dictInsert rest k v

/-- Key removal: the model of `del d[k]` / `d.pop(k, None)` on a Python dict
(on the unique-key states the program builds, removing every entry with the
key equals removing the single one). -/
def dictErase {α : Type} (m : List (Nat × α)) (k : Nat) : List (Nat × α) :=
  m.filter fun e => decide (e.1 ≠ k)

/-- Model of `s.add(x)` on a Python set represented as a duplicate-free list. -/
def setAdd (l : List Nat) (x : Nat) : List Nat :=
  if x ∈ l then l else l ++ [x]

/-- Model of the Python slice `l[-n:]`: the last `n` elements when `n ≥ 1`,
and the whole list when `n = 0` (since `l[-0:]` is `l[0:]`). -/
def pySuffix {α : Type} (n : Nat) (l : List α) : List α :=
  if n = 0 then l else l.drop (l.length - n)

/-- Squared Euclidean distance between two position samples.  The source
computes `((dx)**2 + (dy)**2) ** 0.5`; all comparisons of that square root
against a threshold `t` are encoded below as `0 ≤ t ∧ distSq ≤ t ^ 2`, which
is equivalent in exact arithmetic. -/
def distSq (p q : PositionSample) : ℚ :=
  (p.x - q.x) ^ 2 + (p.y - q.y) ^ 2

/-- State of TrackingManager: the three containers set up in __init__ plus
the two numeric configuration attributes (max_track_history = 100,
track_timeout_seconds = 30 by default). -/
structure TrackingManager where
  active_tracks : List (Nat × TrackInfo)
  track_history : List (Nat × List PositionSample)
  lost_tracks : List Nat
  max_track_history : Nat
  track_timeout_seconds : ℚ
deriving Repr, DecidableEq, Inhabited

/-- Fresh TrackingManager with the given configuration attributes. -/
def TrackingManager.init (maxHist : Nat) (timeout : ℚ) : TrackingManager :=
  { active_tracks := [], track_history := [], lost_tracks := [],
    max_track_history := maxHist, track_timeout_seconds := timeout }

/-- Fresh TrackingManager with the source's default configuration. -/
def TrackingManager.initDefault : TrackingManager :=
  TrackingManager.init 100 30

/-- The track_info dict built in update_tracks from one object meta:
center is derived as (left + width/2, top + height/2). -/
def Detection.toTrackInfo (d : Detection) (now : ℚ) (fnum : Nat) : TrackInfo :=
  { tracking_id := d.object_id, class_id := d.class_id,
    confidence := d.confidence, bbox := d.bbox,
    center := { x := d.bbox.left + d.bbox.width / 2,
                y := d.bbox.top + d.bbox.height / 2 },
    timestamp := now, frame_number := fnum }

/-- The position dict built in _update_track from the track_info record
and appended to the id's history. -/
def TrackInfo.toSample (info : TrackInfo) : PositionSample :=
  { x := info.center.x, y := info.center.y,
    timestamp := info.timestamp, frame_number := info.frame_number }

/-- TrackingManager._update_track.  A new id gets a fresh track and an empty
history and is discarded from lost_tracks; an existing id has its track dict
replaced (dict.update with a full record).  Then the position sample is
appended and the history is trimmed to the last max_track_history entries
when it exceeds that cap.  The `none` history branch mirrors the method's
try/except: a KeyError on `track_history[id].append` is logged and leaves
the state as of the exception point (the program never reaches it, since
every active id has a history entry). -/
def TrackingManager.update_track (s : TrackingManager) (tid : Nat)
    (info : TrackInfo) : TrackingManager :=
  let s1 :=
    if (dictLookup s.active_tracks tid).isSome then
      { s with active_tracks := dictInsert s.active_tracks tid info }
    else
      { s with active_tracks := dictInsert s.active_tracks tid info,
               track_history := dictInsert s.track_history tid [],
               lost_tracks := s.lost_tracks.filter fun x => decide (x ≠ tid) }
  match dictLookup s1.track_history tid with
  | none => s1
  | some h =>
    let h1 := h ++ [info.toSample]
    let h2 := if s1.max_track_history < h1.length then pySuffix s1.max_track_history h1 else h1
    { s1 with track_history := dictInsert s1.track_history tid h2 }

/-- The body of the loop in TrackingManager._check_lost_tracks, one id at a
time: ids whose last observation is more than track_timeout_seconds old are
moved from active_tracks to lost_tracks; history is not touched. -/
def TrackingManager.check_lost_loop (now : ℚ) (ids : List Nat)
    (s : TrackingManager) : TrackingManager :=
  match ids with
  | [] => s
  | tid :: rest =>
    let s' :=
      match dictLookup s.active_tracks tid with
      | none => s
      | some info =>
        if s.track_timeout_seconds < now - info.timestamp then
          { s with lost_tracks := setAdd s.lost_tracks tid,
                   active_tracks := dictErase s.active_tracks tid }
        else s
    TrackingManager.check_lost_loop now rest s'

/-- TrackingManager._check_lost_tracks: run the timeout check over every
active id that is not in the current frame's id set. -/
def TrackingManager.check_lost_tracks (s : TrackingManager)
    (currentIds : List Nat) (now : ℚ) : TrackingManager :=
  let lostIds := (s.active_tracks.map Prod.fst).filter fun tid =>
    decide (tid ∉ currentIds)
  TrackingManager.check_lost_loop now lostIds s

/-- The per-object loop of TrackingManager.update_tracks: build the
track_info record for each detection and feed it to _update_track. -/
def TrackingManager.update_loop (now : ℚ) (fnum : Nat) (dets : List Detection)
    (s : TrackingManager) : TrackingManager :=
  match dets with
  | [] => s
  | d :: rest =>
    TrackingManager.update_loop now fnum rest
      (s.update_track d.object_id (d.toTrackInfo now fnum))

/-- TrackingManager.update_tracks: ingest every detection of the frame, then
run the lost-track check against the set of ids seen in this frame. -/
def TrackingManager.update_tracks (s : TrackingManager) (f : Frame)
    (now : ℚ) : TrackingManager :=
  let s1 := TrackingManager.update_loop now f.frame_num f.detections s
  s1.check_lost_tracks (f.detections.map Detection.object_id) now

/-- TrackingManager.get_track_info: `active_tracks.get(tracking_id)`. -/
def TrackingManager.get_track_info (s : TrackingManager) (tid : Nat) :
    Option TrackInfo :=
  dictLookup s.active_tracks tid

/-- TrackingManager.get_active_tracks (the returned copy is the value
itself in this pure model). -/
def TrackingManager.get_active_tracks (s : TrackingManager) :
    List (Nat × TrackInfo) :=
  s.active_tracks

/-- TrackingManager.is_track_static.  The source computes the maximum
Euclidean distance (starting from 0) from the first entry of the
last-min_frames window to every later entry and tests it against
threshold_pixels; here the square root is eliminated:
`max(0, sqrt d1, ..., sqrt dn) ≤ t` holds iff
`0 ≤ t` and the maximum squared distance is `≤ t ^ 2`. -/
def TrackingManager.is_track_static (s : TrackingManager) (tid : Nat)
    (threshold_pixels : ℚ) (min_frames : Nat) : Bool :=
  match dictLookup s.track_history tid with
  | none => false
  | some history =>
    if history.length < min_frames then false
    else
      match pySuffix min_frames history with
      | [] => false
      | start :: rest =>
        let maxDistSq := rest.foldl (fun m p => max m (distSq p start)) 0
        decide (0 ≤ threshold_pixels ∧ maxDistSq ≤ threshold_pixels ^ 2)

/-- TrackingManager.get_track_duration: none for an unknown id, 0 for fewer
than two samples, otherwise last timestamp minus first timestamp. -/
def TrackingManager.get_track_duration (s : TrackingManager) (tid : Nat) :
    Option ℚ :=
  match dictLookup s.track_history tid with
  | none => none
  | some history =>
    if history.length < 2 then some 0
    else
      match history.head?, history.getLast? with
      | some pFirst, some pLast => some (pLast.timestamp - pFirst.timestamp)
      | _, _ => some 0

/-- The closed event-type enum of BehaviorEvent.event_type. -/
inductive EventType where
  | object_appeared
  | object_static
  | object_moving
deriving Repr, DecidableEq, Inhabited

/-- BehaviorEvent as built by the _create_*_event methods.  The uuid
event_id and the ISO-8601 rendering of the timestamp are presentation-only
and are represented by the rational emission time; class_name is a pure
table lookup of class_id and is represented by class_id.  `duration` models
metadata['duration'], present only on static events; bbox and frame_number
model the metadata fields every event carries. -/
structure BehaviorEvent where
  event_type : EventType
  timestamp : ℚ
  tracking_id : Nat
  class_id : Nat
  position : Center
  bbox : BBox
  frame_number : Nat
  duration : Option ℚ
  confidence : ℚ
deriving Repr, DecidableEq, Inhabited

/-- The four numeric configuration entries of BehaviorAnalyzer.config. -/
structure BAConfig where
  static_threshold_seconds : ℚ
  position_tolerance_pixels : ℚ
  debounce_seconds : ℚ
  min_confidence : ℚ
deriving Repr, DecidableEq, Inhabited

/-- The default_config dict of BehaviorAnalyzer.__init__. -/
def defaultBAConfig : BAConfig :=
  { static_threshold_seconds := 30, position_tolerance_pixels := 10,
    debounce_seconds := 2, min_confidence := 1/2 }

/-- The value stored in BehaviorAnalyzer.tracked_objects: the track_info
record merged with a 'last_seen' stamp. -/
structure ObjState where
  info : TrackInfo
  last_seen : ℚ
deriving Repr, DecidableEq, Inhabited

/-- State of BehaviorAnalyzer: the configuration, the object-state map, the
retained-events buffer and the three per-event-type debounce maps.  The
callback list is modelled separately (emit_results below), since callbacks
are opaque effectful values; the state mutation performed by _emit_event is
the recent_events append. -/
structure BehaviorAnalyzer where
  config : BAConfig
  tracked_objects : List (Nat × ObjState)
  recent_events : List BehaviorEvent
  last_appearance_events : List (Nat × ℚ)
  last_static_events : List (Nat × ℚ)
  last_moving_events : List (Nat × ℚ)
deriving Repr, DecidableEq, Inhabited

/-- Fresh BehaviorAnalyzer with the given merged configuration. -/
def BehaviorAnalyzer.init (cfg : BAConfig) : BehaviorAnalyzer :=
  { config := cfg, tracked_objects := [], recent_events := [],
    last_appearance_events := [], last_static_events := [],
    last_moving_events := [] }

/-- BehaviorAnalyzer._create_appearance_event. -/
def create_appearance_event (tid : Nat) (info : TrackInfo) (now : ℚ) :
    BehaviorEvent :=
  { event_type := EventType.object_appeared, timestamp := now,
    tracking_id := tid, class_id := info.class_id, position := info.center,
    bbox := info.bbox, frame_number := info.frame_number,
    duration := none, confidence := info.confidence }

/-- BehaviorAnalyzer._create_static_event (metadata carries duration). -/
def create_static_event (tid : Nat) (info : TrackInfo) (now dur : ℚ) :
    BehaviorEvent :=
  { event_type := EventType.object_static, timestamp := now,
    tracking_id := tid, class_id := info.class_id, position := info.center,
    bbox := info.bbox, frame_number := info.frame_number,
    duration := some dur, confidence := info.confidence }

/-- BehaviorAnalyzer._create_moving_event. -/
def create_moving_event (tid : Nat) (info : TrackInfo) (now : ℚ) :
    BehaviorEvent :=
  { event_type := EventType.object_moving, timestamp := now,
    tracking_id := tid, class_id := info.class_id, position := info.center,
    bbox := info.bbox, frame_number := info.frame_number,
    duration := none, confidence := info.confidence }

/-- The state effect of BehaviorAnalyzer._emit_event: append the event to
recent_events (callback delivery is modelled by emit_results below). -/
def BehaviorAnalyzer.emit_state (ba : BehaviorAnalyzer) (e : BehaviorEvent) :
    BehaviorAnalyzer :=
  { ba with recent_events := ba.recent_events ++ [e] }

/-- One iteration of the loop in _check_object_appearances: skip on low
confidence, skip ids already in tracked_objects, skip inside the debounce
window (the map defaulting to 0 when the id has no entry), otherwise emit
the appearance event and stamp the debounce map. -/
def BehaviorAnalyzer.check_appearance_one (now : ℚ) (ba : BehaviorAnalyzer)
    (entry : Nat × TrackInfo) : BehaviorAnalyzer × Option BehaviorEvent :=
  if entry.2.confidence < ba.config.min_confidence then (ba, none)
  else if (dictLookup ba.tracked_objects entry.1).isSome then (ba, none)
  else
    let lastT := (dictLookup ba.last_appearance_events entry.1).getD 0
    if now - lastT < ba.config.debounce_seconds then (ba, none)
    else
      let ev := create_appearance_event entry.1 entry.2 now
      let ba1 := ba.emit_state ev
      ({ ba1 with last_appearance_events :=
          dictInsert ba1.last_appearance_events entry.1 now }, some ev)

/-- The loop of _check_object_appearances over current_tracks.items(). -/
def BehaviorAnalyzer.check_appearances_loop (now : ℚ)
    (entries : List (Nat × TrackInfo)) (ba : BehaviorAnalyzer) :
    BehaviorAnalyzer × List BehaviorEvent :=
  match entries with
  | [] => (ba, [])
  | e :: rest =>
    let (ba1, ev) := ba.check_appearance_one now e
    let (ba2, evs) := BehaviorAnalyzer.check_appearances_loop now rest ba1
    (ba2, ev.toList ++ evs)

/-- BehaviorAnalyzer._check_object_appearances. -/
def BehaviorAnalyzer.check_object_appearances (ba : BehaviorAnalyzer)
    (currentTracks : List (Nat × TrackInfo)) (now : ℚ) :
    BehaviorAnalyzer × List BehaviorEvent :=
  BehaviorAnalyzer.check_appearances_loop now currentTracks ba

/-- One iteration of the loop in _check_static_objects: require a track with
sufficient confidence, a positive is_track_static verdict over the
30-sample window, an elapsed static debounce window (the debounce interval
being static_threshold_seconds itself), and a truthy duration at least
static_threshold_seconds (`if duration and duration >= ...`, so a None or
0.0 duration skips). -/
def BehaviorAnalyzer.check_static_one (tm : TrackingManager) (now : ℚ)
    (ba : BehaviorAnalyzer) (tid : Nat) :
    BehaviorAnalyzer × Option BehaviorEvent :=
  match tm.get_track_info tid with
  | none => (ba, none)
  | some info =>
    if info.confidence < ba.config.min_confidence then (ba, none)
    else if tm.is_track_static tid ba.config.position_tolerance_pixels 30 then
      let lastT := (dictLookup ba.last_static_events tid).getD 0
      if now - lastT < ba.config.static_threshold_seconds then (ba, none)
      else
        match tm.get_track_duration tid with
        | none => (ba, none)
        | some dur =>
          if dur = 0 then (ba, none)
          else if dur < ba.config.static_threshold_seconds then (ba, none)
          else
            let ev := create_static_event tid info now dur
            let ba1 := ba.emit_state ev
            ({ ba1 with last_static_events :=
                dictInsert ba1.last_static_events tid now }, some ev)
    else (ba, none)

/-- The loop of _check_static_objects over get_active_tracks().keys(). -/
def BehaviorAnalyzer.check_static_loop (tm : TrackingManager) (now : ℚ)
    (keys : List Nat) (ba : BehaviorAnalyzer) :
    BehaviorAnalyzer × List BehaviorEvent :=
  match keys with
  | [] => (ba, [])
  | tid :: rest =>
    let (ba1, ev) := BehaviorAnalyzer.check_static_one tm now ba tid
    let (ba2, evs) := BehaviorAnalyzer.check_static_loop tm now rest ba1
    (ba2, ev.toList ++ evs)

/-- BehaviorAnalyzer._check_static_objects. -/
def BehaviorAnalyzer.check_static_objects (ba : BehaviorAnalyzer)
    (tm : TrackingManager) (now : ℚ) : BehaviorAnalyzer × List BehaviorEvent :=
  BehaviorAnalyzer.check_static_loop tm now (tm.get_active_tracks.map Prod.fst) ba

/-- One iteration of the loop in _check_moving_objects: for an id with a
static-event stamp, re-test staticness over the shorter 10-sample window;
when no longer static and the moving debounce window has elapsed, emit the
moving event, stamp last_moving_events and delete the id's
last_static_events entry. -/
def BehaviorAnalyzer.check_moving_one (tm : TrackingManager) (now : ℚ)
    (ba : BehaviorAnalyzer) (tid : Nat) :
    BehaviorAnalyzer × Option BehaviorEvent :=
  match tm.get_track_info tid with
  | none => (ba, none)
  | some info =>
    if info.confidence < ba.config.min_confidence then (ba, none)
    else if (dictLookup ba.last_static_events tid).isSome then
      if tm.is_track_static tid ba.config.position_tolerance_pixels 10 then
        (ba, none)
      else
        let lastT := (dictLookup ba.last_moving_events tid).getD 0
        if now - lastT < ba.config.debounce_seconds then (ba, none)
        else
          let ev := create_moving_event tid info now
          let ba1 := ba.emit_state ev
          ({ ba1 with
              last_moving_events := dictInsert ba1.last_moving_events tid now,
              last_static_events := dictErase ba1.last_static_events tid },
            some ev)
    else (ba, none)

/-- The loop of _check_moving_objects over get_active_tracks().keys(). -/
def BehaviorAnalyzer.check_moving_loop (tm : TrackingManager) (now : ℚ)
    (keys : List Nat) (ba : BehaviorAnalyzer) :
    BehaviorAnalyzer × List BehaviorEvent :=
  match keys with
  | [] => (ba, [])
  | tid :: rest =>
    let (ba1, ev) := BehaviorAnalyzer.check_moving_one tm now ba tid
    let (ba2, evs) := BehaviorAnalyzer.check_moving_loop tm now rest ba1
    (ba2, ev.toList ++ evs)

/-- BehaviorAnalyzer._check_moving_objects. -/
def BehaviorAnalyzer.check_moving_objects (ba : BehaviorAnalyzer)
    (tm : TrackingManager) (now : ℚ) : BehaviorAnalyzer × List BehaviorEvent :=
  BehaviorAnalyzer.check_moving_loop tm now (tm.get_active_tracks.map Prod.fst) ba

/-- The refresh phase of _update_object_states: every id of current_tracks
gets its tracked_objects entry replaced by the track info plus a last_seen
stamp of now. -/
def BehaviorAnalyzer.refresh_states_loop (now : ℚ)
    (entries : List (Nat × TrackInfo)) (ba : BehaviorAnalyzer) :
    BehaviorAnalyzer :=
  match entries with
  | [] => ba
  | e :: rest =>
    BehaviorAnalyzer.refresh_states_loop now rest
      { ba with tracked_objects :=
          dictInsert ba.tracked_objects e.1 { info := e.2, last_seen := now } }

/-- The removal phase of _update_object_states: each id collected as
inactive is deleted from tracked_objects and popped from all three debounce
maps. -/
def BehaviorAnalyzer.remove_inactive_loop (ids : List Nat)
    (ba : BehaviorAnalyzer) : BehaviorAnalyzer :=
  match ids with
  | [] => ba
  | tid :: rest =>
    BehaviorAnalyzer.remove_inactive_loop rest
      { ba with
          tracked_objects := dictErase ba.tracked_objects tid,
          last_appearance_events := dictErase ba.last_appearance_events tid,
          last_static_events := dictErase ba.last_static_events tid,
          last_moving_events := dictErase ba.last_moving_events tid }

/-- BehaviorAnalyzer._update_object_states: refresh the entries of every
currently active id, then collect the ids absent from current_tracks whose
last_seen stamp is more than 10 seconds old (a hard-coded grace interval)
and remove them together with their debounce bookkeeping. -/
def BehaviorAnalyzer.update_object_states (ba : BehaviorAnalyzer)
    (currentTracks : List (Nat × TrackInfo)) (now : ℚ) : BehaviorAnalyzer :=
  let ba1 := BehaviorAnalyzer.refresh_states_loop now currentTracks ba
  let inactive := (ba1.tracked_objects.filter fun e =>
    decide ((dictLookup currentTracks e.1).isNone) &&
      decide ((10 : ℚ) < now - e.2.last_seen)).map Prod.fst
  BehaviorAnalyzer.remove_inactive_loop inactive ba1

/-- BehaviorAnalyzer._cleanup_old_events with its default max_events =
1000: trim the retained buffer to the most recent max_events entries. -/
def BehaviorAnalyzer.cleanup_old_events (ba : BehaviorAnalyzer)
    (maxEvents : Nat) : BehaviorAnalyzer :=
  if maxEvents < ba.recent_events.length then
    { ba with recent_events := pySuffix maxEvents ba.recent_events }
  else ba

/-- BehaviorAnalyzer.analyze_frame: the fixed per-frame sequence —
appearance check on the active-track snapshot, static check, moving check,
object-state refresh/removal, event-buffer trim.  The emitted events are
returned in emission order. -/
def BehaviorAnalyzer.analyze_frame (ba : BehaviorAnalyzer)
    (tm : TrackingManager) (now : ℚ) : BehaviorAnalyzer × List BehaviorEvent :=
  let currentTracks := tm.get_active_tracks
  let (ba1, evs1) := ba.check_object_appearances currentTracks now
  let (ba2, evs2) := ba1.check_static_objects tm now
  let (ba3, evs3) := ba2.check_moving_objects tm now
  let ba4 := ba3.update_object_states currentTracks now
  let ba5 := ba4.cleanup_old_events 1000
  (ba5, evs1 ++ evs2 ++ evs3)

/-- BehaviorAnalyzer.get_recent_events: the slice recent_events[-limit:]. -/
def BehaviorAnalyzer.get_recent_events (ba : BehaviorAnalyzer) (limit : Nat) :
    List BehaviorEvent :=
  pySuffix limit ba.recent_events

/-- The numeric part of BehaviorAnalyzer.get_statistics: the sizes of the
object-state map, the retained-events buffer and the three debounce maps. -/
structure BAStatistics where
  tracked_objects : Nat
  recent_events : Nat
  appearance_events_tracked : Nat
  static_events_tracked : Nat
  moving_events_tracked : Nat
deriving Repr, DecidableEq, Inhabited

/-- BehaviorAnalyzer.get_statistics (counts only; the echoed config dict is
the config field itself). -/
def BehaviorAnalyzer.get_statistics (ba : BehaviorAnalyzer) : BAStatistics :=
  { tracked_objects := ba.tracked_objects.length,
    recent_events := ba.recent_events.length,
    appearance_events_tracked := ba.last_appearance_events.length,
    static_events_tracked := ba.last_static_events.length,
    moving_events_tracked := ba.last_moving_events.length }

/-- The callback loop of _emit_event: each registered callback is invoked
once with the event inside its own try/except, so a raising callback
(modelled as an `Except.error` result) is recorded and does not stop the
loop; the function itself is total, so no error escapes the emission. -/
def emit_results (callbacks : List (BehaviorEvent → Except String Unit))
    (e : BehaviorEvent) : List (Except String Unit) :=
  match callbacks with
  | [] => []
  | cb :: rest => cb e :: emit_results rest e

/-- BehaviorAnalyzer._emit_event in full: append the event to the retained
buffer, then run every callback; returns the new buffer and the per-callback
outcomes. -/
def emit_event_full (recents : List BehaviorEvent)
    (callbacks : List (BehaviorEvent → Except String Unit)) (e : BehaviorEvent) :
    List BehaviorEvent × List (Except String Unit) :=
  (recents ++ [e], emit_results callbacks e)

/-- One pipeline step as wired by the probe functions: the tracker probe
runs update_tracks on the frame, then the behavior probe runs analyze_frame
against the updated tracker at the same wall-clock time. -/
def frameStep (tm : TrackingManager) (ba : BehaviorAnalyzer) (f : Frame)
    (now : ℚ) : TrackingManager × BehaviorAnalyzer × List BehaviorEvent :=
  let tm1 := tm.update_tracks f now
  let (ba1, evs) := ba.analyze_frame tm1 now
  (tm1, ba1, evs)

/-- A frame of the single-id scenarios of the spec's testable properties:
at most one detection, a wall-clock time and a frame number. -/
structure ScenarioFrame where
  det : Option Detection
  time : ℚ
  fnum : Nat
deriving Repr, DecidableEq, Inhabited

/-- Run a list of scenario frames through frameStep, accumulating every
emitted event in order. -/
def systemRun (tm : TrackingManager) (ba : BehaviorAnalyzer) :
    List ScenarioFrame → TrackingManager × BehaviorAnalyzer × List BehaviorEvent
  | [] => (tm, ba, [])
  | f :: rest =>
    let (tm1, ba1, evs1) := frameStep tm ba { detections := f.det.toList, frame_num := f.fnum } f.time
    let (tm2, ba2, evs2) := systemRun tm1 ba1 rest
    (tm2, ba2, evs1 ++ evs2)

/-- The single-id scenario constraint of the spec's testable properties:
every detection carries the given id, and every frame processed during an
observation gap lies within trackTimeoutSeconds of the last observation
(so no eviction can fire), tracking the last observation time through the
list. -/
def scenarioOk (tid : Nat) (timeout : ℚ) : ℚ → List ScenarioFrame → Bool
  | _, [] => true
  | tlast, f :: rest =>
    match f.det with
    | some d => decide (d.object_id = tid) && scenarioOk tid timeout f.time rest
    | none => decide (f.time - tlast ≤ timeout) && scenarioOk tid timeout tlast rest

/-- A well-formed detection for id 1, used by the C3 instantiations. -/
def c3Det : Detection :=
  { object_id := 1, class_id := 0, confidence := 9/10,
    bbox := { left := 0, top := 0, width := 2, height := 2 } }

/-- The number of appeared events for a given id in an emission list. -/
def countAppeared (evs : List BehaviorEvent) (tid : Nat) : Nat :=
  (evs.filter fun ev =>
    decide (ev.event_type = EventType.object_appeared ∧ ev.tracking_id = tid)).length

/-- The number of moving events for a given id in an emission list. -/
def countMoving (evs : List BehaviorEvent) (tid : Nat) : Nat :=
  (evs.filter fun ev =>
    decide (ev.event_type = EventType.object_moving ∧ ev.tracking_id = tid)).length

/-- Spec-side reading of the C1 window test: every later entry of the
window lies within Euclidean distance `tol` of the window's first entry.
The square root is eliminated exactly: for a nonnegative squared distance
`d`, `sqrt d ≤ tol` iff `0 ≤ tol ∧ d ≤ tol ^ 2`. -/
def windowWithinTolerance (window : List PositionSample) (tol : ℚ) : Prop :=
  0 ≤ tol ∧ ∀ p ∈ window.tail, distSq p window.headI ≤ tol ^ 2

/-- Ingest a list of frames (each with its wall-clock time) through
update_tracks, in order. -/
def ingestAll (s : TrackingManager) : List (Frame × ℚ) → TrackingManager
  | [] => s
  | fr :: rest => ingestAll (s.update_tracks fr.1 fr.2) rest

/-- All history lists of the store are bounded by `M`. -/
def histLenBound (s : TrackingManager) (M : Nat) : Prop :=
  ∀ tid h, dictLookup s.track_history tid = some h → h.length ≤ M

/-- The store invariant that every active id owns a history entry
(established at track creation and never broken, since eviction keeps
history). -/
def activeHaveHistory (s : TrackingManager) : Prop :=
  ∀ tid, (dictLookup s.active_tracks tid).isSome = true →
    (dictLookup s.track_history tid).isSome = true

/-- An id that has an active track and a non-empty history. -/
def establishedTrack (s : TrackingManager) (tid : Nat) : Prop :=
  (dictLookup s.active_tracks tid).isSome = true ∧
  ∃ h, dictLookup s.track_history tid = some h ∧ h ≠ []

/-- A sample track record used by concrete instantiations. -/
def exInfo1 : TrackInfo :=
  { tracking_id := 1, class_id := 0, confidence := 9/10,
    bbox := { left := 0, top := 0, width := 2, height := 2 },
    center := { x := 1, y := 1 }, timestamp := 0, frame_number := 0 }

/-- Store holding one known track (id 1) with a single-sample history;
id 2 is unknown to it. -/
def c7Store : TrackingManager :=
  { active_tracks := [(1, exInfo1)],
    track_history := [(1, [{ x := 1, y := 1, timestamp := 0, frame_number := 0 }])],
    lost_tracks := [], max_track_history := 100, track_timeout_seconds := 30 }

/-- Store with a three-sample history for id 5, used to instantiate the C1
window characterisation. -/
def c1Store : TrackingManager :=
  { active_tracks := [],
    track_history := [(5,
      [{ x := 0, y := 0, timestamp := 0, frame_number := 0 },
       { x := 3, y := 4, timestamp := 1, frame_number := 1 },
       { x := 0, y := 1, timestamp := 2, frame_number := 2 }])],
    lost_tracks := [], max_track_history := 100, track_timeout_seconds := 30 }

/-- Store with one active track (id 1, last observed at time 0), used for
the C9 counterexample: an empty frame at time 31 still evicts it. -/
def c9Store : TrackingManager :=
  { active_tracks := [(1, exInfo1)],
    track_history := [(1, [{ x := 1, y := 1, timestamp := 0, frame_number := 0 }])],
    lost_tracks := [], max_track_history := 100, track_timeout_seconds := 30 }

/-- A malformed detection record: confidence 2 lies outside [0,1] and both
bbox dimensions are negative. -/
def c6BadDet : Detection :=
  { object_id := 3, class_id := 0, confidence := 2,
    bbox := { left := 0, top := 0, width := -5, height := -4 } }

/-- A well-formed detection record in the same frame as c6BadDet. -/
def c6GoodDet : Detection :=
  { object_id := 4, class_id := 0, confidence := 9/10,
    bbox := { left := 10, top := 10, width := 2, height := 2 } }

/-- The two-sample history list of the C4 instantiation. -/
def c4HistList : List PositionSample :=
  [{ x := 0, y := 0, timestamp := 0, frame_number := 0 },
   { x := 1, y := 0, timestamp := 1, frame_number := 1 }]

/-- Store with capacity 2 and a full history for id 1, used to instantiate
the C4 ring-buffer characterisation. -/
def c4Store : TrackingManager :=
  { active_tracks := [(1, exInfo1)],
    track_history := [(1, c4HistList)],
    lost_tracks := [], max_track_history := 2, track_timeout_seconds := 30 }

/-- A sample behavior event used by concrete instantiations. -/
def exEvent1 : BehaviorEvent :=
  { event_type := EventType.object_appeared, timestamp := 3, tracking_id := 1,
    class_id := 0, position := { x := 1, y := 1 },
    bbox := { left := 0, top := 0, width := 2, height := 2 },
    frame_number := 0, duration := none, confidence := 9/10 }

/-- Analyzer holding one retained event, used to instantiate C10. -/
def c10Analyzer : BehaviorAnalyzer :=
  { config := defaultBAConfig, tracked_objects := [],
    recent_events := [exEvent1], last_appearance_events := [],
    last_static_events := [], last_moving_events := [] }

/-- Track record for id 7 last observed at time 0, used by the C5
instantiations. -/
def c5Info : TrackInfo :=
  { tracking_id := 7, class_id := 0, confidence := 9/10,
    bbox := { left := 99, top := 99, width := 2, height := 2 },
    center := { x := 100, y := 100 }, timestamp := 0, frame_number := 0 }

/-- Tracker with the stale track 7 (timeout 30, last seen at time 0). -/
def c5Tm : TrackingManager :=
  { active_tracks := [(7, c5Info)],
    track_history := [(7, [{ x := 100, y := 100, timestamp := 0, frame_number := 0 }])],
    lost_tracks := [], max_track_history := 100, track_timeout_seconds := 30 }

/-- Analyzer that flagged track 7 static at time 5 and refreshed its
object state at time 30. -/
def c5Ba : BehaviorAnalyzer :=
  { config := defaultBAConfig,
    tracked_objects := [(7, { info := c5Info, last_seen := 30 })],
    recent_events := [], last_appearance_events := [(7, 0)],
    last_static_events := [(7, 5)], last_moving_events := [] }

/-- Track record for id 7 at its latest position, used by the C2
instantiation. -/
def c2Info : TrackInfo :=
  { tracking_id := 7, class_id := 0, confidence := 9/10,
    bbox := { left := 89, top := 0, width := 2, height := 2 },
    center := { x := 90, y := 1 }, timestamp := 99, frame_number := 9 }

/-- Ten-sample history marching from x = 0 to x = 90: far outside a
10-pixel tolerance, so the 10-sample staticness re-test fails. -/
def c2Hist : List PositionSample :=
  [{ x := 0, y := 1, timestamp := 90, frame_number := 0 },
   { x := 10, y := 1, timestamp := 91, frame_number := 1 },
   { x := 20, y := 1, timestamp := 92, frame_number := 2 },
   { x := 30, y := 1, timestamp := 93, frame_number := 3 },
   { x := 40, y := 1, timestamp := 94, frame_number := 4 },
   { x := 50, y := 1, timestamp := 95, frame_number := 5 },
   { x := 60, y := 1, timestamp := 96, frame_number := 6 },
   { x := 70, y := 1, timestamp := 97, frame_number := 7 },
   { x := 80, y := 1, timestamp := 98, frame_number := 8 },
   { x := 90, y := 1, timestamp := 99, frame_number := 9 }]

/-- Tracker for the C2 instantiation: id 7 active and moving. -/
def c2Tm : TrackingManager :=
  { active_tracks := [(7, c2Info)], track_history := [(7, c2Hist)],
    lost_tracks := [], max_track_history := 100, track_timeout_seconds := 30 }

/-- Analyzer for the C2 instantiation: id 7 was flagged static at time 50
and has no moving-event stamp yet. -/
def c2Ba : BehaviorAnalyzer :=
  { config := defaultBAConfig,
    tracked_objects := [(7, { info := c2Info, last_seen := 99 })],
    recent_events := [], last_appearance_events := [(7, 90)],
    last_static_events := [(7, 50)], last_moving_events := [] }

/-- A callback pair for the C8 instantiation: the first raises, the second
succeeds. -/
def c8Callbacks : List (BehaviorEvent → Except String Unit) :=
  [fun _ => Except.error "boom", fun _ => Except.ok ()]

section DictLemmas

variable {α : Type}

@[simp]
theorem dictLookup_insert_self (m : List (Nat × α)) (k : Nat) (v : α) :
    dictLookup (dictInsert m k v) k = some v := by
  induction m with
  | nil => simp [dictInsert, dictLookup]
  | cons e rest ih =>
    by_cases h : e.1 = k
    · simp [dictInsert, dictLookup, h]
    · simp [dictInsert, dictLookup, h, ih]

theorem dictLookup_insert_ne (m : List (Nat × α)) (k k' : Nat) (v : α)
    (h : k ≠ k') : dictLookup (dictInsert m k v) k' = dictLookup m k' := by
  induction m with
  | nil => simp [dictInsert, dictLookup, h]
  | cons e rest ih =>
    by_cases he : e.1 = k
    · have hek' : e.1 ≠ k' := by rw [he]; exact h
      simp [dictInsert, dictLookup, he, h, hek']
    · by_cases he' : e.1 = k'
      · simp [dictInsert, dictLookup, he, he', Ne.symm h]
      · simp [dictInsert, dictLookup, he, he', ih]

@[simp]
theorem dictLookup_erase_self (m : List (Nat × α)) (k : Nat) :
    dictLookup (dictErase m k) k = none := by
  induction m with
  | nil => simp [dictErase, dictLookup]
  | cons e rest ih =>
    by_cases h : e.1 = k
    · simpa [dictErase, dictLookup, h] using ih
    · simpa [dictErase, dictLookup, h] using ih

theorem dictLookup_erase_ne (m : List (Nat × α)) (k k' : Nat) (h : k ≠ k') :
    dictLookup (dictErase m k) k' = dictLookup m k' := by
  induction m with
  | nil => simp [dictErase, dictLookup]
  | cons e rest ih =>
    by_cases he : e.1 = k
    · have hek' : e.1 ≠ k' := by rw [he]; exact h
      simpa [dictErase, dictLookup, he, h, hek'] using ih
    · by_cases he' : e.1 = k'
      · simp [dictErase, dictLookup, he, he', Ne.symm h]
      · simpa [dictErase, dictLookup, he, he'] using ih

theorem dictLookup_erase_none (m : List (Nat × α)) (k k' : Nat)
    (h : dictLookup m k' = none) : dictLookup (dictErase m k) k' = none := by
  by_cases hk : k = k'
  · subst hk; simp
  · rw [dictLookup_erase_ne m k k' hk]; exact h

theorem mem_of_dictLookup_eq_some (m : List (Nat × α)) (k : Nat) (v : α)
    (h : dictLookup m k = some v) : (k, v) ∈ m := by
  induction m with
  | nil => simp [dictLookup] at h
  | cons e rest ih =>
    by_cases he : e.1 = k
    · simp [dictLookup, he] at h
      obtain ⟨k0, v0⟩ := e
      rw [List.mem_cons]
      left
      simp only [] at he h
      simp [he, h]
    · simp [dictLookup, he] at h
      exact List.mem_cons_of_mem _ (ih h)

theorem dictLookup_isSome_of_mem_keys (m : List (Nat × α)) (k : Nat)
    (h : k ∈ m.map Prod.fst) : (dictLookup m k).isSome = true := by
  induction m with
  | nil => simp at h
  | cons e rest ih =>
    by_cases he : e.1 = k
    · simp [dictLookup, he]
    · simp [dictLookup, he]
      rcases List.mem_map.mp h with ⟨p, hp, hpk⟩
      rcases List.mem_cons.mp hp with h1 | h2
      · exact absurd (h1 ▸ hpk) he
      · exact ih (List.mem_map.mpr ⟨p, h2, hpk⟩)

theorem mem_keys_of_dictLookup_isSome (m : List (Nat × α)) (k : Nat)
    (h : (dictLookup m k).isSome = true) : k ∈ m.map Prod.fst := by
  induction m with
  | nil => simp [dictLookup] at h
  | cons e rest ih =>
    by_cases he : e.1 = k
    · simp [he]
    · simp [dictLookup, he] at h
      simp [ih h]

end DictLemmas

theorem pySuffix_eq_drop {α : Type} (n : Nat) (l : List α) (h : 1 ≤ n) :
    pySuffix n l = l.drop (l.length - n) := by
  have : n ≠ 0 := Nat.one_le_iff_ne_zero.mp h
  simp [pySuffix, this]

theorem length_pySuffix {α : Type} (n : Nat) (l : List α) (h1 : 1 ≤ n)
    (h2 : n ≤ l.length) : (pySuffix n l).length = n := by
  rw [pySuffix_eq_drop n l h1, List.length_drop]
  omega

theorem foldl_max_le_iff (f : PositionSample → ℚ) (l : List PositionSample)
    (a c : ℚ) :
    l.foldl (fun m p => max m (f p)) a ≤ c ↔ a ≤ c ∧ ∀ p ∈ l, f p ≤ c := by
  induction l generalizing a with
  | nil => simp
  | cons x xs ih =>
    simp only [List.foldl_cons, ih, max_le_iff, List.mem_cons]
    constructor
    · rintro ⟨⟨ha, hx⟩, hrest⟩
      exact ⟨ha, fun p hp => by rcases hp with rfl | hp; exact hx; exact hrest p hp⟩
    · rintro ⟨ha, hall⟩
      exact ⟨⟨ha, hall x (Or.inl rfl)⟩, fun p hp => hall p (Or.inr hp)⟩

theorem emit_results_eq_map (cbs : List (BehaviorEvent → Except String Unit))
    (e : BehaviorEvent) : emit_results cbs e = cbs.map fun cb => cb e := by
  induction cbs with
  | nil => rfl
  | cons cb rest ih => simp [emit_results, ih]

theorem pySuffix_ne_nil {α : Type} (n : Nat) (l : List α) (h : l ≠ []) :
    pySuffix n l ≠ [] := by
  rcases Nat.eq_zero_or_pos n with h0 | h1
  · simpa [pySuffix, h0] using h
  · rw [pySuffix_eq_drop n l h1]
    intro hcon
    have hlen := congrArg List.length hcon
    rw [List.length_drop] at hlen
    simp only [List.length_nil] at hlen
    have hl : 0 < l.length := List.length_pos.mpr h
    omega

theorem trim_ite_len {α : Type} (M : Nat) (hM : 1 ≤ M) (l : List α) :
    (if M < l.length then pySuffix M l else l).length ≤ M := by
  split
  · rw [pySuffix_eq_drop M l hM, List.length_drop]
    omega
  · omega

section UpdateTrackLemmas

variable (s : TrackingManager) (tid : Nat) (info : TrackInfo)

theorem update_track_max :
    (s.update_track tid info).max_track_history = s.max_track_history := by
  simp only [TrackingManager.update_track]
  split <;> split <;> rfl

theorem update_track_timeout :
    (s.update_track tid info).track_timeout_seconds = s.track_timeout_seconds := by
  simp only [TrackingManager.update_track]
  split <;> split <;> rfl

theorem update_track_active_self :
    dictLookup (s.update_track tid info).active_tracks tid = some info := by
  simp only [TrackingManager.update_track]
  split <;> split <;> simp [dictLookup_insert_self]

theorem update_track_active_ne (tid' : Nat) (h : tid' ≠ tid) :
    dictLookup (s.update_track tid info).active_tracks tid' =
      dictLookup s.active_tracks tid' := by
  simp only [TrackingManager.update_track]
  split <;> split <;> simp [dictLookup_insert_ne _ tid tid' _ (Ne.symm h)]

theorem update_track_hist_ne (tid' : Nat) (h : tid' ≠ tid) :
    dictLookup (s.update_track tid info).track_history tid' =
      dictLookup s.track_history tid' := by
  simp only [TrackingManager.update_track]
  split <;> split <;>
    simp [dictLookup_insert_ne _ tid tid' _ (Ne.symm h)]

theorem update_track_hist_self :
    dictLookup (s.update_track tid info).track_history tid =
      if (dictLookup s.active_tracks tid).isSome then
        (match dictLookup s.track_history tid with
         | none => none
         | some h =>
           some (if s.max_track_history < (h ++ [info.toSample]).length
                 then pySuffix s.max_track_history (h ++ [info.toSample])
                 else h ++ [info.toSample]))
      else
        some (if s.max_track_history < 1
              then pySuffix s.max_track_history [info.toSample]
              else [info.toSample]) := by
  by_cases hA : (dictLookup s.active_tracks tid).isSome = true
  · simp only [TrackingManager.update_track, hA, if_true]
    rcases hH : dictLookup s.track_history tid with _ | h0 <;> simp [hH]
  · rw [Bool.not_eq_true] at hA
    simp only [TrackingManager.update_track, hA, Bool.false_eq_true, if_false]
    simp [dictLookup_insert_self]

end UpdateTrackLemmas

section CheckLostLemmas

theorem check_lost_loop_fields (now : ℚ) (ids : List Nat) :
    ∀ s : TrackingManager,
      (TrackingManager.check_lost_loop now ids s).track_history = s.track_history ∧
      (TrackingManager.check_lost_loop now ids s).max_track_history = s.max_track_history ∧
      (TrackingManager.check_lost_loop now ids s).track_timeout_seconds = s.track_timeout_seconds := by
  induction ids with
  | nil => intro s; exact ⟨rfl, rfl, rfl⟩
  | cons y rest ih =>
    intro s
    simp only [TrackingManager.check_lost_loop]
    rcases hL : dictLookup s.active_tracks y with _ | i <;> simp only [hL]
    · exact ih s
    · split
      · exact ih _
      · exact ih s

theorem check_lost_loop_active_ne (now : ℚ) (ids : List Nat) (tid : Nat) :
    ∀ s : TrackingManager, (∀ x ∈ ids, x ≠ tid) →
      dictLookup (TrackingManager.check_lost_loop now ids s).active_tracks tid =
        dictLookup s.active_tracks tid := by
  induction ids with
  | nil => intro s _; rfl
  | cons y rest ih =>
    intro s h
    have hy : y ≠ tid := h y (List.mem_cons_self y rest)
    have hrest : ∀ x ∈ rest, x ≠ tid := fun x hx => h x (List.mem_cons_of_mem y hx)
    simp only [TrackingManager.check_lost_loop]
    rcases hL : dictLookup s.active_tracks y with _ | i <;> simp only [hL]
    · exact ih s hrest
    · split
      · rw [ih _ hrest]
        exact dictLookup_erase_ne _ y tid hy
      · exact ih s hrest

theorem check_lost_loop_active_none (now : ℚ) (ids : List Nat) (tid : Nat) :
    ∀ s : TrackingManager, dictLookup s.active_tracks tid = none →
      dictLookup (TrackingManager.check_lost_loop now ids s).active_tracks tid = none := by
  induction ids with
  | nil => intro s h; exact h
  | cons y rest ih =>
    intro s h
    simp only [TrackingManager.check_lost_loop]
    rcases hL : dictLookup s.active_tracks y with _ | i <;> simp only [hL]
    · exact ih s h
    · split
      · exact ih _ (dictLookup_erase_none _ y tid h)
      · exact ih s h

theorem check_lost_loop_fresh (now : ℚ) (ids : List Nat) (s : TrackingManager)
    (h : ∀ tid info, dictLookup s.active_tracks tid = some info →
      ¬ s.track_timeout_seconds < now - info.timestamp) :
    TrackingManager.check_lost_loop now ids s = s := by
  induction ids with
  | nil => rfl
  | cons y rest ih =>
    simp only [TrackingManager.check_lost_loop]
    rcases hL : dictLookup s.active_tracks y with _ | i <;> simp only [hL]
    · exact ih
    · rw [if_neg (h y i hL)]
      exact ih

theorem check_lost_loop_evicts (now : ℚ) (ids : List Nat) (tid : Nat) :
    ∀ s : TrackingManager, tid ∈ ids →
      (∀ info, dictLookup s.active_tracks tid = some info →
        s.track_timeout_seconds < now - info.timestamp) →
      dictLookup (TrackingManager.check_lost_loop now ids s).active_tracks tid = none := by
  induction ids with
  | nil => intro s hmem _; simp at hmem
  | cons y rest ih =>
    intro s hmem hstale
    simp only [TrackingManager.check_lost_loop]
    by_cases hy : y = tid
    · subst hy
      rcases hL : dictLookup s.active_tracks y with _ | i <;> simp only [hL]
      · exact check_lost_loop_active_none now rest y s hL
      · rw [if_pos (hstale i hL)]
        exact check_lost_loop_active_none now rest y _ (dictLookup_erase_self _ y)
    · have hmem' : tid ∈ rest := by
        rcases List.mem_cons.mp hmem with h1 | h2
        · exact absurd h1.symm hy
        · exact h2
      rcases hL : dictLookup s.active_tracks y with _ | i <;> simp only [hL]
      · exact ih s hmem' hstale
      · split
        · refine ih _ hmem' ?_
          intro i' hi'
          rw [dictLookup_erase_ne _ y tid hy] at hi'
          exact hstale i' hi'
        · exact ih s hmem' hstale

end CheckLostLemmas

section HistoryBoundLemmas

theorem update_track_bound (s : TrackingManager) (tid : Nat) (info : TrackInfo)
    (M : Nat) (hM : 1 ≤ M) (hMs : s.max_track_history = M)
    (hb : histLenBound s M) : histLenBound (s.update_track tid info) M := by
  intro tid' h' hl'
  by_cases htid : tid' = tid
  · subst htid
    rw [update_track_hist_self, hMs] at hl'
    by_cases hA : (dictLookup s.active_tracks tid').isSome = true
    · rw [if_pos hA] at hl'
      rcases hH : dictLookup s.track_history tid' with _ | h0 <;> rw [hH] at hl'
      · simp at hl'
      · simp only [Option.some.injEq] at hl'
        rw [← hl']
        exact trim_ite_len M hM _
    · rw [if_neg hA] at hl'
      simp only [Option.some.injEq] at hl'
      rw [← hl']
      have := trim_ite_len M hM [info.toSample]
      simpa using this
  · rw [update_track_hist_ne s tid info tid' htid] at hl'
    exact hb tid' h' hl'

theorem update_loop_bound (now : ℚ) (fnum : Nat) (dets : List Detection)
    (M : Nat) (hM : 1 ≤ M) :
    ∀ s : TrackingManager, s.max_track_history = M → histLenBound s M →
      histLenBound (TrackingManager.update_loop now fnum dets s) M ∧
      (TrackingManager.update_loop now fnum dets s).max_track_history = M := by
  induction dets with
  | nil => intro s hMs hb; exact ⟨hb, hMs⟩
  | cons d rest ih =>
    intro s hMs hb
    exact ih _ (by rw [update_track_max]; exact hMs)
      (update_track_bound s _ _ M hM hMs hb)

theorem histLenBound_of_eq (a b : TrackingManager) (M : Nat)
    (heq : a.track_history = b.track_history) (hb : histLenBound b M) :
    histLenBound a M := by
  intro tid h hl
  rw [heq] at hl
  exact hb tid h hl

theorem update_tracks_bound (s : TrackingManager) (f : Frame) (now : ℚ)
    (M : Nat) (hM : 1 ≤ M) (hMs : s.max_track_history = M)
    (hb : histLenBound s M) :
    histLenBound (s.update_tracks f now) M ∧
    (s.update_tracks f now).max_track_history = M := by
  obtain ⟨hb1, hM1⟩ := update_loop_bound now f.frame_num f.detections M hM s hMs hb
  simp only [TrackingManager.update_tracks, TrackingManager.check_lost_tracks]
  constructor
  · exact histLenBound_of_eq _ _ M (check_lost_loop_fields now _ _).1 hb1
  · rw [(check_lost_loop_fields now _ _).2.1]
    exact hM1

theorem ingestAll_bound (frames : List (Frame × ℚ)) (M : Nat) (hM : 1 ≤ M) :
    ∀ s : TrackingManager, s.max_track_history = M → histLenBound s M →
      histLenBound (ingestAll s frames) M := by
  induction frames with
  | nil => intro s _ hb; exact hb
  | cons fr rest ih =>
    intro s hMs hb
    obtain ⟨hb1, hM1⟩ := update_tracks_bound s fr.1 fr.2 M hM hMs hb
    exact ih _ hM1 hb1

end HistoryBoundLemmas

section EstablishedLemmas

theorem update_track_preserves_ahh (s : TrackingManager) (tid : Nat)
    (info : TrackInfo) (hinv : activeHaveHistory s) :
    activeHaveHistory (s.update_track tid info) := by
  intro tid' hA'
  by_cases htid : tid' = tid
  · subst htid
    rw [update_track_hist_self]
    by_cases hA : (dictLookup s.active_tracks tid').isSome = true
    · rw [if_pos hA]
      have := hinv tid' hA
      rcases hH : dictLookup s.track_history tid' with _ | h0
      · rw [hH] at this; simp at this
      · simp [hH]
    · rw [if_neg hA]; simp
  · rw [update_track_hist_ne s tid info tid' htid]
    rw [update_track_active_ne s tid info tid' htid] at hA'
    exact hinv tid' hA'

theorem update_track_established (s : TrackingManager) (tid : Nat)
    (info : TrackInfo) (hinv : activeHaveHistory s) :
    establishedTrack (s.update_track tid info) tid := by
  constructor
  · rw [update_track_active_self]; rfl
  · rw [update_track_hist_self]
    by_cases hA : (dictLookup s.active_tracks tid).isSome = true
    · rw [if_pos hA]
      have := hinv tid hA
      rcases hH : dictLookup s.track_history tid with _ | h0
      · rw [hH] at this; simp at this
      · refine ⟨_, rfl, ?_⟩
        split
        · exact pySuffix_ne_nil _ _ (by simp)
        · simp
    · rw [if_neg hA]
      refine ⟨_, rfl, ?_⟩
      split
      · exact pySuffix_ne_nil _ _ (by simp)
      · simp

theorem update_track_preserves_established (s : TrackingManager) (tid : Nat)
    (info : TrackInfo) (tid' : Nat) (hinv : activeHaveHistory s)
    (he : establishedTrack s tid') :
    establishedTrack (s.update_track tid info) tid' := by
  by_cases htid : tid' = tid
  · subst htid; exact update_track_established s tid' info hinv
  · obtain ⟨hA, h, hh, hne⟩ := he
    refine ⟨?_, h, ?_, hne⟩
    · rw [update_track_active_ne s tid info tid' htid]; exact hA
    · rw [update_track_hist_ne s tid info tid' htid]; exact hh

theorem update_loop_established (now : ℚ) (fnum : Nat) (dets : List Detection) :
    ∀ s : TrackingManager, activeHaveHistory s →
      activeHaveHistory (TrackingManager.update_loop now fnum dets s) ∧
      (∀ tid, establishedTrack s tid →
        establishedTrack (TrackingManager.update_loop now fnum dets s) tid) ∧
      (∀ d ∈ dets,
        establishedTrack (TrackingManager.update_loop now fnum dets s) d.object_id) := by
  induction dets with
  | nil => intro s hinv; exact ⟨hinv, fun _ h => h, by simp⟩
  | cons d rest ih =>
    intro s hinv
    have hinv1 := update_track_preserves_ahh s d.object_id (d.toTrackInfo now fnum) hinv
    obtain ⟨ih1, ih2, ih3⟩ := ih _ hinv1
    refine ⟨ih1, ?_, ?_⟩
    · intro tid he
      exact ih2 tid (update_track_preserves_established s _ _ tid hinv he)
    · intro d' hd'
      rcases List.mem_cons.mp hd' with h1 | h2
      · subst h1
        exact ih2 _ (update_track_established s _ _ hinv)
      · exact ih3 d' h2

theorem check_lost_preserves_established (now : ℚ) (ids : List Nat)
    (s : TrackingManager) (tid : Nat) (hids : ∀ x ∈ ids, x ≠ tid)
    (he : establishedTrack s tid) :
    establishedTrack (TrackingManager.check_lost_loop now ids s) tid := by
  obtain ⟨hA, h, hh, hne⟩ := he
  refine ⟨?_, h, ?_, hne⟩
  · rw [check_lost_loop_active_ne now ids tid s hids]; exact hA
  · rw [(check_lost_loop_fields now ids s).1]; exact hh

end EstablishedLemmas

section AnalyzerPhaseLemmas

theorem dictLookup_none_entries {α : Type} (m : List (Nat × α)) (k : Nat)
    (h : dictLookup m k = none) : ∀ e ∈ m, e.1 ≠ k := by
  induction m with
  | nil => simp
  | cons e rest ih =>
    intro e' he'
    by_cases hek : e.1 = k
    · simp [dictLookup, hek] at h
    · simp only [dictLookup, hek, if_false] at h
      rcases List.mem_cons.mp he' with h1 | h2
      · rw [h1]; exact hek
      · exact ih h e' h2

theorem app_loop_fields (now : ℚ) (entries : List (Nat × TrackInfo)) :
    ∀ ba : BehaviorAnalyzer,
      (BehaviorAnalyzer.check_appearances_loop now entries ba).1.tracked_objects =
        ba.tracked_objects ∧
      (BehaviorAnalyzer.check_appearances_loop now entries ba).1.last_static_events =
        ba.last_static_events ∧
      (BehaviorAnalyzer.check_appearances_loop now entries ba).1.last_moving_events =
        ba.last_moving_events ∧
      (BehaviorAnalyzer.check_appearances_loop now entries ba).1.config = ba.config := by
  induction entries with
  | nil => intro ba; exact ⟨rfl, rfl, rfl, rfl⟩
  | cons e rest ih =>
    intro ba
    simp only [BehaviorAnalyzer.check_appearances_loop]
    rcases h1 : ba.check_appearance_one now e with ⟨ba1, ev⟩
    have hfields : ba1.tracked_objects = ba.tracked_objects ∧
        ba1.last_static_events = ba.last_static_events ∧
        ba1.last_moving_events = ba.last_moving_events ∧
        ba1.config = ba.config := by
      simp only [BehaviorAnalyzer.check_appearance_one,
        BehaviorAnalyzer.emit_state] at h1
      split at h1
      · cases h1; exact ⟨rfl, rfl, rfl, rfl⟩
      · split at h1
        · cases h1; exact ⟨rfl, rfl, rfl, rfl⟩
        · split at h1
          · cases h1; exact ⟨rfl, rfl, rfl, rfl⟩
          · cases h1; exact ⟨rfl, rfl, rfl, rfl⟩
    obtain ⟨f1, f2, f3, f4⟩ := hfields
    obtain ⟨g1, g2, g3, g4⟩ := ih ba1
    exact ⟨by rw [g1, f1], by rw [g2, f2], by rw [g3, f3], by rw [g4, f4]⟩

theorem app_loop_lastapp_ne (now : ℚ) (entries : List (Nat × TrackInfo))
    (tid : Nat) :
    ∀ ba : BehaviorAnalyzer, (∀ e ∈ entries, e.1 ≠ tid) →
      dictLookup (BehaviorAnalyzer.check_appearances_loop now entries ba).1.last_appearance_events tid =
        dictLookup ba.last_appearance_events tid := by
  induction entries with
  | nil => intro ba _; rfl
  | cons e rest ih =>
    intro ba hne
    have he : e.1 ≠ tid := hne e (List.mem_cons_self e rest)
    have hrest : ∀ e' ∈ rest, e'.1 ≠ tid :=
      fun e' h' => hne e' (List.mem_cons_of_mem e h')
    simp only [BehaviorAnalyzer.check_appearances_loop]
    rcases h1 : ba.check_appearance_one now e with ⟨ba1, ev⟩
    have hpres : dictLookup ba1.last_appearance_events tid =
        dictLookup ba.last_appearance_events tid := by
      simp only [BehaviorAnalyzer.check_appearance_one,
        BehaviorAnalyzer.emit_state] at h1
      split at h1
      · cases h1; rfl
      · split at h1
        · cases h1; rfl
        · split at h1
          · cases h1; rfl
          · cases h1
            exact dictLookup_insert_ne _ e.1 tid now he
    rw [ih ba1 hrest, hpres]

theorem static_loop_fields (tm : TrackingManager) (now : ℚ) (keys : List Nat) :
    ∀ ba : BehaviorAnalyzer,
      (BehaviorAnalyzer.check_static_loop tm now keys ba).1.tracked_objects =
        ba.tracked_objects ∧
      (BehaviorAnalyzer.check_static_loop tm now keys ba).1.last_appearance_events =
        ba.last_appearance_events ∧
      (BehaviorAnalyzer.check_static_loop tm now keys ba).1.last_moving_events =
        ba.last_moving_events ∧
      (BehaviorAnalyzer.check_static_loop tm now keys ba).1.config = ba.config := by
  induction keys with
  | nil => intro ba; exact ⟨rfl, rfl, rfl, rfl⟩
  | cons k rest ih =>
    intro ba
    simp only [BehaviorAnalyzer.check_static_loop]
    rcases h1 : BehaviorAnalyzer.check_static_one tm now ba k with ⟨ba1, ev⟩
    have hfields : ba1.tracked_objects = ba.tracked_objects ∧
        ba1.last_appearance_events = ba.last_appearance_events ∧
        ba1.last_moving_events = ba.last_moving_events ∧
        ba1.config = ba.config := by
      simp only [BehaviorAnalyzer.check_static_one,
        BehaviorAnalyzer.emit_state] at h1
      split at h1
      · cases h1; exact ⟨rfl, rfl, rfl, rfl⟩
      · split at h1
        · cases h1; exact ⟨rfl, rfl, rfl, rfl⟩
        · split at h1
          · split at h1
            · cases h1; exact ⟨rfl, rfl, rfl, rfl⟩
            · split at h1
              · cases h1; exact ⟨rfl, rfl, rfl, rfl⟩
              · split at h1
                · cases h1; exact ⟨rfl, rfl, rfl, rfl⟩
                · split at h1
                  · cases h1; exact ⟨rfl, rfl, rfl, rfl⟩
                  · cases h1; exact ⟨rfl, rfl, rfl, rfl⟩
          · cases h1; exact ⟨rfl, rfl, rfl, rfl⟩
    obtain ⟨f1, f2, f3, f4⟩ := hfields
    obtain ⟨g1, g2, g3, g4⟩ := ih ba1
    exact ⟨by rw [g1, f1], by rw [g2, f2], by rw [g3, f3], by rw [g4, f4]⟩

theorem static_loop_laststatic_ne (tm : TrackingManager) (now : ℚ)
    (keys : List Nat) (tid : Nat) :
    ∀ ba : BehaviorAnalyzer, (∀ k ∈ keys, k ≠ tid) →
      dictLookup (BehaviorAnalyzer.check_static_loop tm now keys ba).1.last_static_events tid =
        dictLookup ba.last_static_events tid := by
  induction keys with
  | nil => intro ba _; rfl
  | cons k rest ih =>
    intro ba hne
    have hk : k ≠ tid := hne k (List.mem_cons_self k rest)
    have hrest : ∀ k' ∈ rest, k' ≠ tid :=
      fun k' h' => hne k' (List.mem_cons_of_mem k h')
    simp only [BehaviorAnalyzer.check_static_loop]
    rcases h1 : BehaviorAnalyzer.check_static_one tm now ba k with ⟨ba1, ev⟩
    have hpres : dictLookup ba1.last_static_events tid =
        dictLookup ba.last_static_events tid := by
      simp only [BehaviorAnalyzer.check_static_one,
        BehaviorAnalyzer.emit_state] at h1
      split at h1
      · cases h1; rfl
      · split at h1
        · cases h1; rfl
        · split at h1
          · split at h1
            · cases h1; rfl
            · split at h1
              · cases h1; rfl
              · split at h1
                · cases h1; rfl
                · split at h1
                  · cases h1; rfl
                  · cases h1
                    exact dictLookup_insert_ne _ k tid now hk
          · cases h1; rfl
    rw [ih ba1 hrest, hpres]

theorem moving_loop_fields (tm : TrackingManager) (now : ℚ) (keys : List Nat) :
    ∀ ba : BehaviorAnalyzer,
      (BehaviorAnalyzer.check_moving_loop tm now keys ba).1.tracked_objects =
        ba.tracked_objects ∧
      (BehaviorAnalyzer.check_moving_loop tm now keys ba).1.last_appearance_events =
        ba.last_appearance_events ∧
      (BehaviorAnalyzer.check_moving_loop tm now keys ba).1.config = ba.config := by
  induction keys with
  | nil => intro ba; exact ⟨rfl, rfl, rfl⟩
  | cons k rest ih =>
    intro ba
    simp only [BehaviorAnalyzer.check_moving_loop]
    rcases h1 : BehaviorAnalyzer.check_moving_one tm now ba k with ⟨ba1, ev⟩
    have hfields : ba1.tracked_objects = ba.tracked_objects ∧
        ba1.last_appearance_events = ba.last_appearance_events ∧
        ba1.config = ba.config := by
      simp only [BehaviorAnalyzer.check_moving_one,
        BehaviorAnalyzer.emit_state] at h1
      split at h1
      · cases h1; exact ⟨rfl, rfl, rfl⟩
      · split at h1
        · cases h1; exact ⟨rfl, rfl, rfl⟩
        · split at h1
          · split at h1
            · cases h1; exact ⟨rfl, rfl, rfl⟩
            · split at h1
              · cases h1; exact ⟨rfl, rfl, rfl⟩
              · cases h1; exact ⟨rfl, rfl, rfl⟩
          · cases h1; exact ⟨rfl, rfl, rfl⟩
    obtain ⟨f1, f2, f3⟩ := hfields
    obtain ⟨g1, g2, g3⟩ := ih ba1
    exact ⟨by rw [g1, f1], by rw [g2, f2], by rw [g3, f3]⟩

theorem moving_loop_lookup_ne (tm : TrackingManager) (now : ℚ)
    (keys : List Nat) (tid : Nat) :
    ∀ ba : BehaviorAnalyzer, (∀ k ∈ keys, k ≠ tid) →
      dictLookup (BehaviorAnalyzer.check_moving_loop tm now keys ba).1.last_static_events tid =
        dictLookup ba.last_static_events tid ∧
      dictLookup (BehaviorAnalyzer.check_moving_loop tm now keys ba).1.last_moving_events tid =
        dictLookup ba.last_moving_events tid := by
  induction keys with
  | nil => intro ba _; exact ⟨rfl, rfl⟩
  | cons k rest ih =>
    intro ba hne
    have hk : k ≠ tid := hne k (List.mem_cons_self k rest)
    have hrest : ∀ k' ∈ rest, k' ≠ tid :=
      fun k' h' => hne k' (List.mem_cons_of_mem k h')
    simp only [BehaviorAnalyzer.check_moving_loop]
    rcases h1 : BehaviorAnalyzer.check_moving_one tm now ba k with ⟨ba1, ev⟩
    have hpres : dictLookup ba1.last_static_events tid =
        dictLookup ba.last_static_events tid ∧
        dictLookup ba1.last_moving_events tid =
        dictLookup ba.last_moving_events tid := by
      simp only [BehaviorAnalyzer.check_moving_one,
        BehaviorAnalyzer.emit_state] at h1
      split at h1
      · cases h1; exact ⟨rfl, rfl⟩
      · split at h1
        · cases h1; exact ⟨rfl, rfl⟩
        · split at h1
          · split at h1
            · cases h1; exact ⟨rfl, rfl⟩
            · split at h1
              · cases h1; exact ⟨rfl, rfl⟩
              · cases h1
                exact ⟨dictLookup_erase_ne _ k tid hk,
                  dictLookup_insert_ne _ k tid now hk⟩
          · cases h1; exact ⟨rfl, rfl⟩
    obtain ⟨ihs, ihm⟩ := ih ba1 hrest
    exact ⟨by rw [ihs, hpres.1], by rw [ihm, hpres.2]⟩

theorem refresh_loop_fields (now : ℚ) (entries : List (Nat × TrackInfo)) :
    ∀ ba : BehaviorAnalyzer,
      (BehaviorAnalyzer.refresh_states_loop now entries ba).last_appearance_events =
        ba.last_appearance_events ∧
      (BehaviorAnalyzer.refresh_states_loop now entries ba).last_static_events =
        ba.last_static_events ∧
      (BehaviorAnalyzer.refresh_states_loop now entries ba).last_moving_events =
        ba.last_moving_events ∧
      (BehaviorAnalyzer.refresh_states_loop now entries ba).recent_events =
        ba.recent_events ∧
      (BehaviorAnalyzer.refresh_states_loop now entries ba).config = ba.config := by
  induction entries with
  | nil => intro ba; exact ⟨rfl, rfl, rfl, rfl, rfl⟩
  | cons e rest ih =>
    intro ba
    simp only [BehaviorAnalyzer.refresh_states_loop]
    exact ih _

theorem refresh_loop_tracked_ne (now : ℚ) (entries : List (Nat × TrackInfo))
    (tid : Nat) :
    ∀ ba : BehaviorAnalyzer, (∀ e ∈ entries, e.1 ≠ tid) →
      dictLookup (BehaviorAnalyzer.refresh_states_loop now entries ba).tracked_objects tid =
        dictLookup ba.tracked_objects tid := by
  induction entries with
  | nil => intro ba _; rfl
  | cons e rest ih =>
    intro ba hne
    have he : e.1 ≠ tid := hne e (List.mem_cons_self e rest)
    have hrest : ∀ e' ∈ rest, e'.1 ≠ tid :=
      fun e' h' => hne e' (List.mem_cons_of_mem e h')
    simp only [BehaviorAnalyzer.refresh_states_loop]
    rw [ih _ hrest]
    exact dictLookup_insert_ne _ e.1 tid _ he

theorem remove_loop_removes (ids : List Nat) (tid : Nat) :
    ∀ ba : BehaviorAnalyzer,
      ((tid ∈ ids ∨ dictLookup ba.tracked_objects tid = none) →
        dictLookup (BehaviorAnalyzer.remove_inactive_loop ids ba).tracked_objects tid = none) ∧
      ((tid ∈ ids ∨ dictLookup ba.last_appearance_events tid = none) →
        dictLookup (BehaviorAnalyzer.remove_inactive_loop ids ba).last_appearance_events tid = none) ∧
      ((tid ∈ ids ∨ dictLookup ba.last_static_events tid = none) →
        dictLookup (BehaviorAnalyzer.remove_inactive_loop ids ba).last_static_events tid = none) ∧
      ((tid ∈ ids ∨ dictLookup ba.last_moving_events tid = none) →
        dictLookup (BehaviorAnalyzer.remove_inactive_loop ids ba).last_moving_events tid = none) := by
  induction ids with
  | nil =>
    intro ba
    refine ⟨?_, ?_, ?_, ?_⟩ <;>
      · rintro (h | h)
        · simp at h
        · exact h
  | cons y rest ih =>
    intro ba
    simp only [BehaviorAnalyzer.remove_inactive_loop]
    obtain ⟨ih1, ih2, ih3, ih4⟩ := ih
      { ba with
          tracked_objects := dictErase ba.tracked_objects y,
          last_appearance_events := dictErase ba.last_appearance_events y,
          last_static_events := dictErase ba.last_static_events y,
          last_moving_events := dictErase ba.last_moving_events y }
    refine ⟨?_, ?_, ?_, ?_⟩
    · rintro (h | h)
      · rcases List.mem_cons.mp h with h1 | h2
        · exact ih1 (Or.inr (by rw [h1]; exact dictLookup_erase_self _ y))
        · exact ih1 (Or.inl h2)
      · exact ih1 (Or.inr (dictLookup_erase_none _ y tid h))
    · rintro (h | h)
      · rcases List.mem_cons.mp h with h1 | h2
        · exact ih2 (Or.inr (by rw [h1]; exact dictLookup_erase_self _ y))
        · exact ih2 (Or.inl h2)
      · exact ih2 (Or.inr (dictLookup_erase_none _ y tid h))
    · rintro (h | h)
      · rcases List.mem_cons.mp h with h1 | h2
        · exact ih3 (Or.inr (by rw [h1]; exact dictLookup_erase_self _ y))
        · exact ih3 (Or.inl h2)
      · exact ih3 (Or.inr (dictLookup_erase_none _ y tid h))
    · rintro (h | h)
      · rcases List.mem_cons.mp h with h1 | h2
        · exact ih4 (Or.inr (by rw [h1]; exact dictLookup_erase_self _ y))
        · exact ih4 (Or.inl h2)
      · exact ih4 (Or.inr (dictLookup_erase_none _ y tid h))

theorem cleanup_fields (ba : BehaviorAnalyzer) (m : Nat) :
    (ba.cleanup_old_events m).tracked_objects = ba.tracked_objects ∧
    (ba.cleanup_old_events m).last_appearance_events = ba.last_appearance_events ∧
    (ba.cleanup_old_events m).last_static_events = ba.last_static_events ∧
    (ba.cleanup_old_events m).last_moving_events = ba.last_moving_events ∧
    (ba.cleanup_old_events m).config = ba.config := by
  simp only [BehaviorAnalyzer.cleanup_old_events]
  split <;> exact ⟨rfl, rfl, rfl, rfl, rfl⟩

theorem dictLookup_erase_isSome {α : Type} (m : List (Nat × α)) (k t : Nat)
    (h : (dictLookup (dictErase m k) t).isSome = true) :
    (dictLookup m t).isSome = true := by
  by_cases hkt : t = k
  · subst hkt
    rw [dictLookup_erase_self] at h
    simp at h
  · rwa [dictLookup_erase_ne m k t (fun he => hkt he.symm)] at h

theorem check_appearance_one_snd (now : ℚ) (ba : BehaviorAnalyzer)
    (e : Nat × TrackInfo) (ev : BehaviorEvent)
    (h : (ba.check_appearance_one now e).2 = some ev) :
    ev.event_type = EventType.object_appeared := by
  simp only [BehaviorAnalyzer.check_appearance_one] at h
  split at h
  · simp at h
  · split at h
    · simp at h
    · split at h
      · simp at h
      · simp only [Option.some.injEq] at h
        rw [← h]
        rfl

theorem app_loop_types (now : ℚ) (entries : List (Nat × TrackInfo)) :
    ∀ ba : BehaviorAnalyzer,
      ∀ ev ∈ (BehaviorAnalyzer.check_appearances_loop now entries ba).2,
        ev.event_type = EventType.object_appeared := by
  induction entries with
  | nil => intro ba ev hev; simp [BehaviorAnalyzer.check_appearances_loop] at hev
  | cons e rest ih =>
    intro ba ev hev
    simp only [BehaviorAnalyzer.check_appearances_loop] at hev
    rcases h1 : ba.check_appearance_one now e with ⟨ba1, evop⟩
    rw [h1] at hev
    simp only [List.mem_append] at hev
    rcases hev with hev | hev
    · rcases evop with _ | ev0
      · simp at hev
      · simp only [Option.toList_some, List.mem_singleton] at hev
        subst hev
        exact check_appearance_one_snd now ba e ev (by rw [h1])
    · exact ih ba1 ev hev

theorem check_static_one_cases (tm : TrackingManager) (now : ℚ)
    (ba : BehaviorAnalyzer) (k : Nat) :
    BehaviorAnalyzer.check_static_one tm now ba k = (ba, none) ∨
    ∃ info dur,
      BehaviorAnalyzer.check_static_one tm now ba k =
        ({ ba with
            recent_events := ba.recent_events ++ [create_static_event k info now dur],
            last_static_events := dictInsert ba.last_static_events k now },
          some (create_static_event k info now dur)) := by
  simp only [BehaviorAnalyzer.check_static_one, BehaviorAnalyzer.emit_state]
  rcases h : tm.get_track_info k with _ | info
  · left; rfl
  · by_cases hc : info.confidence < ba.config.min_confidence
    · left; simp [hc]
    · simp only [hc, if_false]
      by_cases hs : tm.is_track_static k ba.config.position_tolerance_pixels 30 = true
      · simp only [hs, if_true]
        by_cases hd : now - (dictLookup ba.last_static_events k).getD 0 <
            ba.config.static_threshold_seconds
        · left; simp [hd]
        · simp only [hd, if_false]
          rcases hdur : tm.get_track_duration k with _ | dur
          · left; rfl
          · by_cases hz : dur = 0
            · left; simp [hz]
            · simp only [hz, if_false]
              by_cases hlt : dur < ba.config.static_threshold_seconds
              · left; simp [hlt]
              · right
                exact ⟨info, dur, by simp [hlt]⟩
      · simp only [Bool.not_eq_true] at hs
        left; simp [hs]

theorem static_loop_spec (tm : TrackingManager) (now : ℚ) (keys : List Nat) :
    ∀ ba : BehaviorAnalyzer,
      (∀ ev ∈ (BehaviorAnalyzer.check_static_loop tm now keys ba).2,
        ev.event_type = EventType.object_static) ∧
      (∀ t, (dictLookup (BehaviorAnalyzer.check_static_loop tm now keys ba).1.last_static_events t).isSome = true →
        (dictLookup ba.last_static_events t).isSome = true ∨
        ∃ ev ∈ (BehaviorAnalyzer.check_static_loop tm now keys ba).2,
          ev.event_type = EventType.object_static ∧ ev.tracking_id = t) := by
  induction keys with
  | nil =>
    intro ba
    constructor
    · intro ev hev; simp [BehaviorAnalyzer.check_static_loop] at hev
    · intro t h; exact Or.inl h
  | cons k rest ih =>
    intro ba
    rcases check_static_one_cases tm now ba k with hcase | ⟨info, dur, hcase⟩
    · constructor
      · intro ev hev
        simp only [BehaviorAnalyzer.check_static_loop, hcase] at hev
        simp only [Option.toList_none, List.nil_append] at hev
        exact (ih ba).1 ev hev
      · intro t h
        simp only [BehaviorAnalyzer.check_static_loop, hcase] at h ⊢
        rcases (ih ba).2 t h with h1 | ⟨ev, hev, hty, hid⟩
        · exact Or.inl h1
        · exact Or.inr ⟨ev, by simpa using hev, hty, hid⟩
    · set ev0 := create_static_event k info now dur with hev0
      set ba1 : BehaviorAnalyzer :=
        { ba with
            recent_events := ba.recent_events ++ [ev0],
            last_static_events := dictInsert ba.last_static_events k now }
        with hba1
      constructor
      · intro ev hev
        simp only [BehaviorAnalyzer.check_static_loop, hcase] at hev
        simp only [Option.toList_some, List.singleton_append, List.mem_cons] at hev
        rcases hev with rfl | hev
        · rfl
        · exact (ih ba1).1 ev hev
      · intro t h
        simp only [BehaviorAnalyzer.check_static_loop, hcase] at h ⊢
        rcases (ih ba1).2 t h with h1 | ⟨ev, hev, hty, hid⟩
        · by_cases hkt : t = k
          · subst hkt
            exact Or.inr ⟨ev0, by simp, rfl, rfl⟩
          · rw [hba1] at h1
            simp only at h1
            rw [dictLookup_insert_ne _ k t now (fun he => hkt he.symm)] at h1
            exact Or.inl h1
        · exact Or.inr ⟨ev, by simp [hev], hty, hid⟩

theorem check_moving_one_cases (tm : TrackingManager) (now : ℚ)
    (ba : BehaviorAnalyzer) (k : Nat) :
    BehaviorAnalyzer.check_moving_one tm now ba k = (ba, none) ∨
    ∃ info, tm.get_track_info k = some info ∧
      (dictLookup ba.last_static_events k).isSome = true ∧
      tm.is_track_static k ba.config.position_tolerance_pixels 10 = false ∧
      ba.config.debounce_seconds ≤
        now - (dictLookup ba.last_moving_events k).getD 0 ∧
      BehaviorAnalyzer.check_moving_one tm now ba k =
        ({ ba with
            recent_events := ba.recent_events ++ [create_moving_event k info now],
            last_moving_events := dictInsert ba.last_moving_events k now,
            last_static_events := dictErase ba.last_static_events k },
          some (create_moving_event k info now)) := by
  rcases h : tm.get_track_info k with _ | info
  · left
    simp [BehaviorAnalyzer.check_moving_one, h]
  · by_cases hc : info.confidence < ba.config.min_confidence
    · left
      simp [BehaviorAnalyzer.check_moving_one, h, hc]
    · by_cases hf : (dictLookup ba.last_static_events k).isSome = true
      · by_cases hs : tm.is_track_static k ba.config.position_tolerance_pixels 10 = true
        · left
          simp [BehaviorAnalyzer.check_moving_one, h, hc, hf, hs]
        · by_cases hd : now - (dictLookup ba.last_moving_events k).getD 0 <
              ba.config.debounce_seconds
          · left
            simp [BehaviorAnalyzer.check_moving_one, h, hc, hf, hs, hd]
          · right
            refine ⟨info, rfl, hf, by rwa [Bool.not_eq_true] at hs, not_lt.mp hd, ?_⟩
            simp [BehaviorAnalyzer.check_moving_one, BehaviorAnalyzer.emit_state,
              h, hc, hf, hs, hd]
      · left
        simp [BehaviorAnalyzer.check_moving_one, h, hc, hf]

theorem moving_loop_spec (tm : TrackingManager) (now : ℚ) (keys : List Nat) :
    ∀ ba : BehaviorAnalyzer,
      (∀ ev ∈ (BehaviorAnalyzer.check_moving_loop tm now keys ba).2,
        ev.event_type = EventType.object_moving ∧
        (dictLookup ba.last_static_events ev.tracking_id).isSome = true ∧
        tm.is_track_static ev.tracking_id ba.config.position_tolerance_pixels 10 = false ∧
        ba.config.debounce_seconds ≤
          now - (dictLookup ba.last_moving_events ev.tracking_id).getD 0 ∧
        dictLookup (BehaviorAnalyzer.check_moving_loop tm now keys ba).1.last_static_events
          ev.tracking_id = none) ∧
      (∀ t, (dictLookup (BehaviorAnalyzer.check_moving_loop tm now keys ba).1.last_static_events t).isSome = true →
        (dictLookup ba.last_static_events t).isSome = true) ∧
      (∀ t, countMoving (BehaviorAnalyzer.check_moving_loop tm now keys ba).2 t ≤ 1) := by
  induction keys with
  | nil =>
    intro ba
    refine ⟨?_, ?_, ?_⟩
    · intro ev hev; simp [BehaviorAnalyzer.check_moving_loop] at hev
    · intro t h; exact h
    · intro t; simp [BehaviorAnalyzer.check_moving_loop, countMoving]
  | cons k rest ih =>
    intro ba
    rcases check_moving_one_cases tm now ba k with hcase |
      ⟨info, hlook, hflag, hstat, hdeb, hcase⟩
    · refine ⟨?_, ?_, ?_⟩
      · intro ev hev
        simp only [BehaviorAnalyzer.check_moving_loop, hcase] at hev
        simp only [Option.toList_none, List.nil_append] at hev
        have h := (ih ba).1 ev hev
        simp only [BehaviorAnalyzer.check_moving_loop, hcase]
        exact h
      · intro t h
        simp only [BehaviorAnalyzer.check_moving_loop, hcase] at h
        exact (ih ba).2.1 t h
      · intro t
        simp only [BehaviorAnalyzer.check_moving_loop, hcase]
        simpa using (ih ba).2.2 t
    · set ev0 := create_moving_event k info now with hev0
      set ba1 : BehaviorAnalyzer :=
        { ba with
            recent_events := ba.recent_events ++ [ev0],
            last_moving_events := dictInsert ba.last_moving_events k now,
            last_static_events := dictErase ba.last_static_events k }
        with hba1
      have hba1static : ba1.last_static_events = dictErase ba.last_static_events k := rfl
      have hba1moving : ba1.last_moving_events = dictInsert ba.last_moving_events k now := rfl
      have hba1config : ba1.config = ba.config := rfl
      have hRid : ∀ ev ∈ (BehaviorAnalyzer.check_moving_loop tm now rest ba1).2,
          ev.tracking_id ≠ k := by
        intro ev hev hk
        have hfl := ((ih ba1).1 ev hev).2.1
        rw [hk, hba1static, dictLookup_erase_self] at hfl
        simp at hfl
      refine ⟨?_, ?_, ?_⟩
      · intro ev hev
        simp only [BehaviorAnalyzer.check_moving_loop, hcase] at hev ⊢
        simp only [Option.toList_some, List.singleton_append, List.mem_cons] at hev
        rcases hev with rfl | hev
        · refine ⟨rfl, hflag, hstat, hdeb, ?_⟩
          rcases hend : dictLookup (BehaviorAnalyzer.check_moving_loop tm now rest ba1).1.last_static_events ev0.tracking_id
            with _ | v
          · rfl
          · have : (dictLookup (BehaviorAnalyzer.check_moving_loop tm now rest ba1).1.last_static_events ev0.tracking_id).isSome = true := by
              rw [hend]; rfl
            have h1 := (ih ba1).2.1 _ this
            rw [hba1static] at h1
            have : ev0.tracking_id = k := rfl
            rw [this, dictLookup_erase_self] at h1
            simp at h1
        · have h := (ih ba1).1 ev hev
          have hne : ev.tracking_id ≠ k := hRid ev hev
          refine ⟨h.1, ?_, ?_, ?_, h.2.2.2.2⟩
          · have := h.2.1
            rw [hba1static, dictLookup_erase_ne _ k ev.tracking_id (Ne.symm hne)] at this
            exact this
          · have := h.2.2.1
            rwa [hba1config] at this
          · have := h.2.2.2.1
            rwa [hba1config, hba1moving,
              dictLookup_insert_ne _ k ev.tracking_id now (Ne.symm hne)] at this
      · intro t h
        simp only [BehaviorAnalyzer.check_moving_loop, hcase] at h
        have h1 := (ih ba1).2.1 t h
        rw [hba1static] at h1
        exact dictLookup_erase_isSome _ k t h1
      · intro t
        simp only [BehaviorAnalyzer.check_moving_loop, hcase, countMoving]
        simp only [List.filter_append]
        by_cases hkt : t = k
        · subst hkt
          have hnil : (BehaviorAnalyzer.check_moving_loop tm now rest ba1).2.filter
              (fun ev => decide (ev.event_type = EventType.object_moving ∧ ev.tracking_id = t)) = [] := by
            apply List.filter_eq_nil.mpr
            intro ev hev
            simp only [decide_eq_true_eq, not_and]
            intro _ hid
            exact absurd hid (hRid ev hev)
          rw [hnil]
          simp [ev0, create_moving_event]
        · have hle := (ih ba1).2.2 t
          simp only [countMoving] at hle
          have hev0 : (Option.toList (some ev0)).filter
              (fun ev => decide (ev.event_type = EventType.object_moving ∧ ev.tracking_id = t)) = [] := by
            simp only [Option.toList_some]
            apply List.filter_eq_nil.mpr
            intro ev hev
            simp only [List.mem_singleton] at hev
            subst hev
            simp only [decide_eq_true_eq, not_and]
            intro _ hid
            exact hkt (by rw [← hid]; rfl)
          rw [hev0]
          simpa using hle

end AnalyzerPhaseLemmas

/-- C1: for an id with at least `minSamples` (≥ 1) history entries,
is_track_static holds iff every later entry of the most-recent-minSamples
window lies within `pixelTolerance` (Euclidean) of the window's first
entry, with the maximum-distance comparison encoded square-root-free; for
an id with fewer than `minSamples` entries, or no history at all, it
returns false. -/
theorem c1_is_track_static_window (s : TrackingManager) (tid : Nat)
    (tol : ℚ) (m : Nat) (hm : 1 ≤ m) :
    (∀ hist, dictLookup s.track_history tid = some hist → m ≤ hist.length →
      (s.is_track_static tid tol m = true ↔
        windowWithinTolerance (pySuffix m hist) tol)) ∧
    (∀ hist, dictLookup s.track_history tid = some hist → hist.length < m →
      s.is_track_static tid tol m = false) ∧
    (dictLookup s.track_history tid = none →
      s.is_track_static tid tol m = false) := by
  refine ⟨?_, ?_, ?_⟩
  · intro hist hlook hlen
    have hnotlt : ¬ hist.length < m := Nat.not_lt.mpr hlen
    have hwlen : (pySuffix m hist).length = m := length_pySuffix m hist hm hlen
    rcases hw : pySuffix m hist with _ | ⟨start, rest⟩
    · rw [hw] at hwlen; simp at hwlen; omega
    · simp only [TrackingManager.is_track_static, hlook, if_neg hnotlt, hw]
      rw [decide_eq_true_iff]
      unfold windowWithinTolerance
      rw [foldl_max_le_iff (fun p => distSq p start) rest 0 (tol ^ 2)]
      constructor
      · rintro ⟨htol, _, hall⟩
        exact ⟨htol, by simpa using hall⟩
      · rintro ⟨htol, hall⟩
        exact ⟨htol, sq_nonneg tol, by simpa using hall⟩
  · intro hist hlook hlen
    simp [TrackingManager.is_track_static, hlook, hlen]
  · intro hlook
    simp [TrackingManager.is_track_static, hlook]

/-- Witness for C1 at a concrete store: id 5 has 3 ≥ 2 samples and the
window characterisation holds there. -/
theorem c1_is_track_static_window_witness :
    c1Store.is_track_static 5 5 2 = true ↔
      windowWithinTolerance
        (pySuffix 2
          [{ x := 0, y := 0, timestamp := 0, frame_number := 0 },
           { x := 3, y := 4, timestamp := 1, frame_number := 1 },
           { x := 0, y := 1, timestamp := 2, frame_number := 2 }]) 5 :=
  (c1_is_track_static_window c1Store 5 5 2 (by decide)).1 _ (by rfl) (by decide)

/-- C7 counterexample: the staticness query yields `false` both for the
unknown id 2 and for the known id 1 (whose history is shorter than the
window), so its result on an unknown id is not distinguishable from a
normal answer, contrary to the claim. -/
theorem c7_counterexample :
    c7Store.is_track_static 2 10 30 = c7Store.is_track_static 1 10 30 ∧
    dictLookup c7Store.track_history 2 = none ∧
    (dictLookup c7Store.track_history 1).isSome = true ∧
    dictLookup c7Store.active_tracks 2 = none ∧
    (dictLookup c7Store.active_tracks 1).isSome = true := by
  decide

/-- C7 amended: on an id with no track and no history, the track lookup and
the duration query return `none` (a signal distinguishable from any normal
answer) and the staticness query returns `false` (the same value as for a
known id that does not qualify as static); all three are total functions,
so no exception is raised. -/
theorem c7_unknown_id_queries (s : TrackingManager) (tid : Nat)
    (hA : dictLookup s.active_tracks tid = none)
    (hH : dictLookup s.track_history tid = none) :
    s.get_track_info tid = none ∧ s.get_track_duration tid = none ∧
    ∀ tol : ℚ, ∀ m : Nat, s.is_track_static tid tol m = false := by
  refine ⟨?_, ?_, ?_⟩
  · simp [TrackingManager.get_track_info, hA]
  · simp [TrackingManager.get_track_duration, hH]
  · intro tol m
    simp [TrackingManager.is_track_static, hH]

/-- Witness for C7 (amended) at the concrete store: id 2 is unknown. -/
theorem c7_unknown_id_queries_witness :
    c7Store.get_track_info 2 = none ∧ c7Store.get_track_duration 2 = none ∧
    ∀ tol : ℚ, ∀ m : Nat, c7Store.is_track_static 2 tol m = false :=
  c7_unknown_id_queries c7Store 2 (by decide) (by decide)

/-- C8: when some registered callback fails on the event, the emission
still appends the event to the retained buffer, and the outcome list is
exactly one invocation of every registered callback on the event (so the
other callbacks are all still invoked once); the emission function is
total, so no error escapes it. -/
theorem c8_emit_event_isolation (recents : List BehaviorEvent)
    (cbs : List (BehaviorEvent → Except String Unit)) (e : BehaviorEvent)
    (msg : String) (i : Nat) (hi : i < cbs.length)
    (hfail : (cbs.get ⟨i, hi⟩) e = Except.error msg) :
    (emit_event_full recents cbs e).1 = recents ++ [e] ∧
    (emit_event_full recents cbs e).2 = cbs.map (fun cb => cb e) := by
  exact ⟨rfl, emit_results_eq_map cbs e⟩

/-- Witness for C8: two callbacks, the first raising; both are invoked and
the event is retained. -/
theorem c8_emit_event_isolation_witness :
    (emit_event_full [] c8Callbacks exEvent1).1 = [] ++ [exEvent1] ∧
    (emit_event_full [] c8Callbacks exEvent1).2 =
      c8Callbacks.map (fun cb => cb exEvent1) :=
  c8_emit_event_isolation [] c8Callbacks exEvent1 "boom" 0 (by decide) rfl

/-- C10: on a non-empty retained buffer, limit 0 returns the entire buffer
(Python slice semantics of recent_events[-0:]), and any limit ≥ 1 returns
the last min(limit, length) events in order (a suffix of the buffer). -/
theorem c10_get_recent_events (ba : BehaviorAnalyzer)
    (hne : ba.recent_events ≠ []) :
    ba.get_recent_events 0 = ba.recent_events ∧
    ∀ limit : Nat, 1 ≤ limit →
      ba.get_recent_events limit =
        ba.recent_events.drop (ba.recent_events.length - limit) ∧
      (ba.get_recent_events limit).length = min limit ba.recent_events.length := by
  refine ⟨by simp [BehaviorAnalyzer.get_recent_events, pySuffix], ?_⟩
  intro limit hl
  have hdrop := pySuffix_eq_drop limit ba.recent_events hl
  refine ⟨by simpa [BehaviorAnalyzer.get_recent_events] using hdrop, ?_⟩
  rw [BehaviorAnalyzer.get_recent_events, hdrop, List.length_drop]
  omega

/-- Witness for C10 at a concrete one-event analyzer. -/
theorem c10_get_recent_events_witness :
    c10Analyzer.get_recent_events 0 = c10Analyzer.recent_events ∧
    ∀ limit : Nat, 1 ≤ limit →
      c10Analyzer.get_recent_events limit =
        c10Analyzer.recent_events.drop (c10Analyzer.recent_events.length - limit) ∧
      (c10Analyzer.get_recent_events limit).length =
        min limit c10Analyzer.recent_events.length :=
  c10_get_recent_events c10Analyzer (by decide)

/-- C4: with a history cap of at least 1, (a) every history list of a store
grown from the initial state by any sequence of ingested frames has length
at most max_track_history, and (b) a single track update replaces the id's
history by the suffix of the appended sequence that drops exactly the
oldest entries beyond the cap, preserving the insertion order of the kept
samples (ring-buffer semantics). -/
theorem c4_history_bounded_ring (M : Nat) (timeout : ℚ) (hM : 1 ≤ M) :
    (∀ frames : List (Frame × ℚ), ∀ tid h,
      dictLookup (ingestAll (TrackingManager.init M timeout) frames).track_history tid = some h →
      h.length ≤ M) ∧
    (∀ (s : TrackingManager) (tid : Nat) (info : TrackInfo) (h : List PositionSample),
      s.max_track_history = M →
      (dictLookup s.active_tracks tid).isSome = true →
      dictLookup s.track_history tid = some h →
      dictLookup (s.update_track tid info).track_history tid =
        some ((h ++ [info.toSample]).drop (h.length + 1 - M))) := by
  constructor
  · intro frames tid h hl
    refine ingestAll_bound frames M hM (TrackingManager.init M timeout) rfl ?_ tid h hl
    intro tid' h' hl'
    simp [TrackingManager.init, dictLookup] at hl'
  · intro s tid info h hMs hA hH
    rw [update_track_hist_self, if_pos hA, hH, hMs]
    dsimp only
    have hlen : (h ++ [info.toSample]).length = h.length + 1 := by simp
    by_cases hcap : M < (h ++ [info.toSample]).length
    · rw [if_pos hcap, pySuffix_eq_drop _ _ hM, hlen]
    · rw [if_neg hcap]
      rw [hlen] at hcap
      have h0 : h.length + 1 - M = 0 := by omega
      rw [h0, List.drop_zero]

/-- Witness for C4: a two-frame ingest into a cap-2 store stays bounded,
and a concrete update of a full cap-2 history drops exactly the oldest
sample. -/
theorem c4_history_bounded_ring_witness :
    (∀ tid h,
      dictLookup (ingestAll (TrackingManager.init 2 30)
        [({ detections := [c6GoodDet], frame_num := 0 }, 0),
         ({ detections := [c6GoodDet], frame_num := 1 }, 1)]).track_history tid = some h →
      h.length ≤ 2) ∧
    dictLookup (c4Store.update_track 1 exInfo1).track_history 1 =
      some ((c4HistList ++ [exInfo1.toSample]).drop (c4HistList.length + 1 - 2)) :=
  ⟨(c4_history_bounded_ring 2 30 (by decide)).1 _,
   (c4_history_bounded_ring 2 30 (by decide)).2 c4Store 1 exInfo1 c4HistList rfl
     (by rfl) rfl⟩

/-- C6 counterexample: a malformed detection record (confidence 2 outside
[0,1], negative bbox dimensions) is not rejected — ingesting it creates a
track for its id and appends a position sample. -/
theorem c6_counterexample :
    (dictLookup (TrackingManager.initDefault.update_tracks
        { detections := [c6BadDet], frame_num := 0 } 0).active_tracks 3).isSome = true ∧
    dictLookup (TrackingManager.initDefault.update_tracks
        { detections := [c6BadDet], frame_num := 0 } 0).track_history 3 =
      some [{ x := -5/2, y := -2, timestamp := 0, frame_number := 0 }] := by
  norm_num [TrackingManager.initDefault, TrackingManager.init,
    TrackingManager.update_tracks, TrackingManager.update_loop,
    TrackingManager.update_track, TrackingManager.check_lost_tracks,
    TrackingManager.check_lost_loop, Detection.toTrackInfo, TrackInfo.toSample,
    c6BadDet, dictLookup, dictInsert, dictErase, pySuffix]

/-- C6 amended: update_tracks performs no value validation at all — every
detection record of the frame, malformed or not, is processed identically:
after the call its id owns an active track and a non-empty history (the
per-record try/except of the source only guards metadata-extraction
exceptions, which value ranges never raise).  The hypothesis is the store
invariant that every active id has a history entry. -/
theorem c6_no_validation (s : TrackingManager) (f : Frame) (now : ℚ)
    (hinv : activeHaveHistory s) :
    ∀ d ∈ f.detections, establishedTrack (s.update_tracks f now) d.object_id := by
  intro d hd
  obtain ⟨hahh, hpres, hdets⟩ :=
    update_loop_established now f.frame_num f.detections s hinv
  have hest := hdets d hd
  simp only [TrackingManager.update_tracks, TrackingManager.check_lost_tracks]
  refine check_lost_preserves_established now _ _ _ ?_ hest
  intro x hx hxd
  have hx' := List.of_mem_filter hx
  simp only [decide_eq_true_eq] at hx'
  apply hx'
  rw [hxd]
  exact List.mem_map.mpr ⟨d, hd, rfl⟩

/-- Witness for C6 (amended): both the malformed and the well-formed record
of a mixed frame end up with a track and a non-empty history. -/
theorem c6_no_validation_witness :
    establishedTrack (TrackingManager.initDefault.update_tracks
      { detections := [c6BadDet, c6GoodDet], frame_num := 0 } 0) 3 ∧
    establishedTrack (TrackingManager.initDefault.update_tracks
      { detections := [c6BadDet, c6GoodDet], frame_num := 0 } 0) 4 :=
  ⟨c6_no_validation TrackingManager.initDefault _ 0
      (by intro tid h; simp [TrackingManager.initDefault, TrackingManager.init, dictLookup] at h)
      c6BadDet (by simp),
   c6_no_validation TrackingManager.initDefault _ 0
      (by intro tid h; simp [TrackingManager.initDefault, TrackingManager.init, dictLookup] at h)
      c6GoodDet (by simp)⟩

/-- C9 counterexample: ingesting an empty detection set does not leave the
store unchanged — the lost-track check still runs, and a track last
observed 31 seconds ago (timeout 30) is removed from the active set. -/
theorem c9_counterexample :
    (c9Store.update_tracks { detections := [], frame_num := 5 } 31).active_tracks = [] ∧
    c9Store.active_tracks ≠ [] := by
  norm_num [c9Store, exInfo1, TrackingManager.update_tracks,
    TrackingManager.update_loop, TrackingManager.check_lost_tracks,
    TrackingManager.check_lost_loop, dictLookup, dictErase, setAdd]

/-- C9 amended: an empty detection set creates and updates no track and
modifies no history, but the stale-track eviction pass still runs; the
store state is unchanged exactly when every active track is within the
timeout (the second conjunct), while stale tracks are evicted as in C5. -/
theorem c9_empty_frame (s : TrackingManager) (fnum : Nat) (now : ℚ) :
    (s.update_tracks { detections := [], frame_num := fnum } now).track_history =
      s.track_history ∧
    ((∀ tid info, dictLookup s.active_tracks tid = some info →
        now - info.timestamp ≤ s.track_timeout_seconds) →
      s.update_tracks { detections := [], frame_num := fnum } now = s) := by
  constructor
  · simp only [TrackingManager.update_tracks, TrackingManager.check_lost_tracks,
      TrackingManager.update_loop]
    exact (check_lost_loop_fields now _ s).1
  · intro hfresh
    simp only [TrackingManager.update_tracks, TrackingManager.check_lost_tracks,
      TrackingManager.update_loop]
    exact check_lost_loop_fresh now _ s
      (fun tid info h => not_lt.mpr (hfresh tid info h))

theorem update_loop_lookup_ne (now : ℚ) (fnum : Nat) (dets : List Detection)
    (tid : Nat) :
    ∀ s : TrackingManager, (∀ d ∈ dets, d.object_id ≠ tid) →
      dictLookup (TrackingManager.update_loop now fnum dets s).active_tracks tid =
        dictLookup s.active_tracks tid ∧
      dictLookup (TrackingManager.update_loop now fnum dets s).track_history tid =
        dictLookup s.track_history tid ∧
      (TrackingManager.update_loop now fnum dets s).track_timeout_seconds =
        s.track_timeout_seconds := by
  induction dets with
  | nil => intro s _; exact ⟨rfl, rfl, rfl⟩
  | cons d rest ih =>
    intro s hne
    have hd : tid ≠ d.object_id := Ne.symm (hne d (List.mem_cons_self d rest))
    have hrest : ∀ d' ∈ rest, d'.object_id ≠ tid :=
      fun d' h' => hne d' (List.mem_cons_of_mem d h')
    obtain ⟨i1, i2, i3⟩ := ih (s.update_track d.object_id (d.toTrackInfo now fnum)) hrest
    simp only [TrackingManager.update_loop]
    refine ⟨?_, ?_, ?_⟩
    · rw [i1, update_track_active_ne s d.object_id _ tid hd]
    · rw [i2, update_track_hist_ne s d.object_id _ tid hd]
    · rw [i3, update_track_timeout]

/-- C5 counterexample: at time 31 the eviction pass removes the stale
track 7 from the active set, yet on the same pass the analyzer's
static-debounce entry for id 7 survives (its object state was refreshed at
time 30, inside the 10-second grace window), so the statistics still count
it — the claim's same-pass debounce cleanup does not happen. -/
theorem c5_counterexample :
    dictLookup (frameStep c5Tm c5Ba { detections := [], frame_num := 9 } 31).1.active_tracks 7 =
      none ∧
    dictLookup (frameStep c5Tm c5Ba { detections := [], frame_num := 9 } 31).2.1.last_static_events 7 =
      some 5 ∧
    ((frameStep c5Tm c5Ba { detections := [], frame_num := 9 } 31).2.1.get_statistics).static_events_tracked = 1 := by
  norm_num [frameStep, c5Tm, c5Ba, c5Info, defaultBAConfig,
    TrackingManager.update_tracks, TrackingManager.update_loop,
    TrackingManager.check_lost_tracks, TrackingManager.check_lost_loop,
    TrackingManager.get_active_tracks, BehaviorAnalyzer.analyze_frame,
    BehaviorAnalyzer.check_object_appearances,
    BehaviorAnalyzer.check_appearances_loop,
    BehaviorAnalyzer.check_static_objects, BehaviorAnalyzer.check_static_loop,
    BehaviorAnalyzer.check_moving_objects, BehaviorAnalyzer.check_moving_loop,
    BehaviorAnalyzer.update_object_states, BehaviorAnalyzer.refresh_states_loop,
    BehaviorAnalyzer.remove_inactive_loop, BehaviorAnalyzer.cleanup_old_events,
    BehaviorAnalyzer.get_statistics, dictLookup, dictInsert, dictErase, setAdd]

/-- C5 amended: eviction and debounce cleanup are two separate phases.
(a) On the eviction pass, an id absent from the frame whose last
observation is older than trackTimeoutSeconds is removed from the active
set while its position history is retained unchanged.  (b) The analyzer
deletes the id's object state and its entries in all three debounce maps
only on an analysis pass where the id is absent from the active tracks and
more than 10 seconds (a hard-coded grace interval, not the same pass) have
elapsed since the analyzer last saw it. -/
theorem c5_eviction_two_phase :
    (∀ (s : TrackingManager) (f : Frame) (now : ℚ) (tid : Nat) (info : TrackInfo),
      (∀ d ∈ f.detections, d.object_id ≠ tid) →
      dictLookup s.active_tracks tid = some info →
      s.track_timeout_seconds < now - info.timestamp →
      dictLookup (s.update_tracks f now).active_tracks tid = none ∧
      dictLookup (s.update_tracks f now).track_history tid =
        dictLookup s.track_history tid) ∧
    (∀ (tm : TrackingManager) (ba : BehaviorAnalyzer) (now : ℚ) (tid : Nat)
        (st : ObjState),
      dictLookup tm.active_tracks tid = none →
      dictLookup ba.tracked_objects tid = some st →
      10 < now - st.last_seen →
      dictLookup (ba.analyze_frame tm now).1.tracked_objects tid = none ∧
      dictLookup (ba.analyze_frame tm now).1.last_appearance_events tid = none ∧
      dictLookup (ba.analyze_frame tm now).1.last_static_events tid = none ∧
      dictLookup (ba.analyze_frame tm now).1.last_moving_events tid = none) := by
  constructor
  · intro s f now tid info hdets hlook hstale
    obtain ⟨ha, hh, hto⟩ :=
      update_loop_lookup_ne now f.frame_num f.detections tid s hdets
    simp only [TrackingManager.update_tracks, TrackingManager.check_lost_tracks]
    constructor
    · apply check_lost_loop_evicts
      · apply List.mem_filter.mpr
        constructor
        · exact mem_keys_of_dictLookup_isSome _ tid (by rw [ha, hlook]; rfl)
        · simp only [decide_eq_true_eq]
          intro hmem
          rcases List.mem_map.mp hmem with ⟨d, hd, hdid⟩
          exact hdets d hd hdid
      · intro info' hinfo'
        rw [ha, hlook] at hinfo'
        cases hinfo'
        rw [hto]
        exact hstale
    · rw [(check_lost_loop_fields now _ _).1, hh]
  · intro tm ba now tid st hact htr hgrace
    have hkeys_ne : ∀ k ∈ tm.active_tracks.map Prod.fst, k ≠ tid := by
      intro k hk hkt
      subst hkt
      have := dictLookup_isSome_of_mem_keys _ _ hk
      rw [hact] at this
      simp at this
    have hentries_ne : ∀ e ∈ tm.active_tracks, e.1 ≠ tid :=
      dictLookup_none_entries _ _ hact
    simp only [BehaviorAnalyzer.analyze_frame,
      BehaviorAnalyzer.check_object_appearances,
      BehaviorAnalyzer.check_static_objects,
      BehaviorAnalyzer.check_moving_objects, TrackingManager.get_active_tracks]
    rcases hp1 : BehaviorAnalyzer.check_appearances_loop now tm.active_tracks ba
      with ⟨ba1, evs1⟩
    rcases hp2 : BehaviorAnalyzer.check_static_loop tm now
        (tm.active_tracks.map Prod.fst) ba1 with ⟨ba2, evs2⟩
    rcases hp3 : BehaviorAnalyzer.check_moving_loop tm now
        (tm.active_tracks.map Prod.fst) ba2 with ⟨ba3, evs3⟩
    simp only [hp1, hp2, hp3]
    have f1 := app_loop_fields now tm.active_tracks ba
    rw [hp1] at f1
    have f1a := app_loop_lastapp_ne now tm.active_tracks tid ba hentries_ne
    rw [hp1] at f1a
    have f2 := static_loop_fields tm now (tm.active_tracks.map Prod.fst) ba1
    rw [hp2] at f2
    have f2s := static_loop_laststatic_ne tm now (tm.active_tracks.map Prod.fst)
      tid ba1 hkeys_ne
    rw [hp2] at f2s
    have f3 := moving_loop_fields tm now (tm.active_tracks.map Prod.fst) ba2
    rw [hp3] at f3
    have f3m := moving_loop_lookup_ne tm now (tm.active_tracks.map Prod.fst)
      tid ba2 hkeys_ne
    rw [hp3] at f3m
    simp only at f1 f1a f2 f2s f3 f3m
    have htr3 : dictLookup ba3.tracked_objects tid = some st := by
      rw [f3.1, f2.1, f1.1]
      exact htr
    have happ3 : dictLookup ba3.last_appearance_events tid =
        dictLookup ba.last_appearance_events tid := by
      rw [f3.2.1, f2.2.1, f1a]
    have hst3 : dictLookup ba3.last_static_events tid =
        dictLookup ba.last_static_events tid := by
      rw [f3m.1, f2s, f1.2.1]
    have hmv3 : dictLookup ba3.last_moving_events tid =
        dictLookup ba.last_moving_events tid := by
      rw [f3m.2, f2.2.2.1, f1.2.2.1]
    simp only [BehaviorAnalyzer.update_object_states]
    set ba4 := BehaviorAnalyzer.refresh_states_loop now tm.active_tracks ba3 with hba4
    have r4 := refresh_loop_fields now tm.active_tracks ba3
    rw [← hba4] at r4
    have r4t : dictLookup ba4.tracked_objects tid = some st := by
      rw [hba4, refresh_loop_tracked_ne now tm.active_tracks tid ba3 hentries_ne]
      exact htr3
    have hmemfilter : (tid, st) ∈ ba4.tracked_objects.filter fun e =>
        decide ((dictLookup tm.active_tracks e.1).isNone) &&
          decide ((10 : ℚ) < now - e.2.last_seen) := by
      apply List.mem_filter.mpr
      refine ⟨mem_of_dictLookup_eq_some _ tid st r4t, ?_⟩
      simp only [Bool.and_eq_true, decide_eq_true_eq]
      exact ⟨by simp [hact], hgrace⟩
    have hmemids : tid ∈ (ba4.tracked_objects.filter fun e =>
        decide ((dictLookup tm.active_tracks e.1).isNone) &&
          decide ((10 : ℚ) < now - e.2.last_seen)).map Prod.fst :=
      List.mem_map.mpr ⟨(tid, st), hmemfilter, rfl⟩
    obtain ⟨q1, q2, q3, q4⟩ := remove_loop_removes
      ((ba4.tracked_objects.filter fun e =>
          decide ((dictLookup tm.active_tracks e.1).isNone) &&
            decide ((10 : ℚ) < now - e.2.last_seen)).map Prod.fst) tid ba4
    have c := cleanup_fields
      (BehaviorAnalyzer.remove_inactive_loop
        ((ba4.tracked_objects.filter fun e =>
            decide ((dictLookup tm.active_tracks e.1).isNone) &&
              decide ((10 : ℚ) < now - e.2.last_seen)).map Prod.fst) ba4) 1000
    refine ⟨?_, ?_, ?_, ?_⟩
    · rw [c.1]; exact q1 (Or.inl hmemids)
    · rw [c.2.1]; exact q2 (Or.inl hmemids)
    · rw [c.2.2.1]; exact q3 (Or.inl hmemids)
    · rw [c.2.2.2.1]; exact q4 (Or.inl hmemids)

/-- Witness for C5 (amended): the stale track 7 is evicted with history
retained, and a later analysis pass (time 41, more than 10 seconds after
the analyzer last saw id 7) clears its object state and all three debounce
entries. -/
theorem c5_eviction_two_phase_witness :
    (dictLookup (c5Tm.update_tracks { detections := [], frame_num := 9 } 31).active_tracks 7 =
        none ∧
      dictLookup (c5Tm.update_tracks { detections := [], frame_num := 9 } 31).track_history 7 =
        dictLookup c5Tm.track_history 7) ∧
    (dictLookup (c5Ba.analyze_frame TrackingManager.initDefault 41).1.tracked_objects 7 = none ∧
      dictLookup (c5Ba.analyze_frame TrackingManager.initDefault 41).1.last_appearance_events 7 = none ∧
      dictLookup (c5Ba.analyze_frame TrackingManager.initDefault 41).1.last_static_events 7 = none ∧
      dictLookup (c5Ba.analyze_frame TrackingManager.initDefault 41).1.last_moving_events 7 = none) :=
  ⟨c5_eviction_two_phase.1 c5Tm { detections := [], frame_num := 9 } 31 7 c5Info
      (by simp) rfl (by norm_num [c5Tm, c5Info]),
   c5_eviction_two_phase.2 TrackingManager.initDefault c5Ba 41 7
      { info := c5Info, last_seen := 30 } rfl rfl
      (by norm_num)⟩

theorem update_track_active_eq (s : TrackingManager) (tid : Nat)
    (info : TrackInfo) :
    (s.update_track tid info).active_tracks =
      dictInsert s.active_tracks tid info := by
  simp only [TrackingManager.update_track]
  split <;> split <;> rfl

theorem remove_loop_lookup_ne (ids : List Nat) (tid : Nat) :
    ∀ ba : BehaviorAnalyzer, (∀ x ∈ ids, x ≠ tid) →
      dictLookup (BehaviorAnalyzer.remove_inactive_loop ids ba).tracked_objects tid =
        dictLookup ba.tracked_objects tid := by
  induction ids with
  | nil => intro ba _; rfl
  | cons y rest ih =>
    intro ba h
    have hy : y ≠ tid := h y (List.mem_cons_self y rest)
    have hrest : ∀ x ∈ rest, x ≠ tid := fun x hx => h x (List.mem_cons_of_mem y hx)
    simp only [BehaviorAnalyzer.remove_inactive_loop]
    rw [ih _ hrest]
    exact dictLookup_erase_ne _ y tid hy

theorem countAppeared_append (a b : List BehaviorEvent) (t : Nat) :
    countAppeared (a ++ b) t = countAppeared a t + countAppeared b t := by
  simp [countAppeared, List.filter_append]

theorem countAppeared_eq_zero (a : List BehaviorEvent) (t : Nat)
    (h : ∀ ev ∈ a, ev.event_type ≠ EventType.object_appeared) :
    countAppeared a t = 0 := by
  simp only [countAppeared, List.length_eq_zero]
  apply List.filter_eq_nil_iff.mpr
  intro ev hev
  simp only [decide_eq_true_eq, not_and]
  intro hty
  exact absurd hty (h ev hev)

theorem c3_analyze (tid : Nat) (tm : TrackingManager) (ba : BehaviorAnalyzer)
    (now : ℚ) (info : TrackInfo)
    (hact : tm.active_tracks = [(tid, info)])
    (htr : (dictLookup ba.tracked_objects tid).isSome = true) :
    countAppeared (ba.analyze_frame tm now).2 tid = 0 ∧
    (dictLookup (ba.analyze_frame tm now).1.tracked_objects tid).isSome = true := by
  have happ : BehaviorAnalyzer.check_appearances_loop now tm.active_tracks ba =
      (ba, []) := by
    rw [hact]
    simp only [BehaviorAnalyzer.check_appearances_loop,
      BehaviorAnalyzer.check_appearance_one]
    by_cases hc : info.confidence < ba.config.min_confidence
    · simp [hc]
    · simp [hc, htr]
  rcases hp2 : BehaviorAnalyzer.check_static_loop tm now
      (tm.active_tracks.map Prod.fst) ba with ⟨ba2, evs2⟩
  rcases hp3 : BehaviorAnalyzer.check_moving_loop tm now
      (tm.active_tracks.map Prod.fst) ba2 with ⟨ba3, evs3⟩
  have hevs : (ba.analyze_frame tm now).2 = [] ++ evs2 ++ evs3 := by
    simp only [BehaviorAnalyzer.analyze_frame,
      BehaviorAnalyzer.check_object_appearances,
      BehaviorAnalyzer.check_static_objects,
      BehaviorAnalyzer.check_moving_objects, TrackingManager.get_active_tracks,
      happ, hp2, hp3]
  have hstate : (ba.analyze_frame tm now).1 =
      BehaviorAnalyzer.cleanup_old_events
        (BehaviorAnalyzer.update_object_states ba3 tm.active_tracks now) 1000 := by
    simp only [BehaviorAnalyzer.analyze_frame,
      BehaviorAnalyzer.check_object_appearances,
      BehaviorAnalyzer.check_static_objects,
      BehaviorAnalyzer.check_moving_objects, TrackingManager.get_active_tracks,
      happ, hp2, hp3]
  constructor
  · rw [hevs, countAppeared_append, countAppeared_append]
    have h2 : countAppeared evs2 tid = 0 := by
      apply countAppeared_eq_zero
      intro ev hev
      rw [(static_loop_spec tm now (tm.active_tracks.map Prod.fst) ba).1 ev
        (by rw [hp2]; exact hev)]
      intro hcon
      cases hcon
    have h3 : countAppeared evs3 tid = 0 := by
      apply countAppeared_eq_zero
      intro ev hev
      have hm := moving_loop_spec tm now (tm.active_tracks.map Prod.fst) ba2
      rw [hp3] at hm
      simp only at hm
      rw [(hm.1 ev hev).1]
      intro hcon
      cases hcon
    rw [h2, h3]
    rfl
  · rw [hstate, (cleanup_fields _ 1000).1]
    simp only [BehaviorAnalyzer.update_object_states]
    have hrefresh : dictLookup
        (BehaviorAnalyzer.refresh_states_loop now tm.active_tracks ba3).tracked_objects tid =
        some { info := info, last_seen := now } := by
      rw [hact]
      simp only [BehaviorAnalyzer.refresh_states_loop]
      exact dictLookup_insert_self _ tid _
    have hids_ne : ∀ x ∈ (((BehaviorAnalyzer.refresh_states_loop now tm.active_tracks ba3).tracked_objects.filter
        fun e => decide ((dictLookup tm.active_tracks e.1).isNone) &&
          decide ((10 : ℚ) < now - e.2.last_seen)).map Prod.fst), x ≠ tid := by
      intro x hx hxt
      rcases List.mem_map.mp hx with ⟨e, he, hex⟩
      have hcond := List.of_mem_filter he
      simp only [Bool.and_eq_true, decide_eq_true_eq] at hcond
      rw [hex, hxt] at hcond
      rw [hact] at hcond
      simp [dictLookup] at hcond
    rw [remove_loop_lookup_ne _ tid _ hids_ne, hrefresh]
    rfl

theorem c3_step (tid : Nat) (timeout tlast : ℚ) (tm : TrackingManager)
    (ba : BehaviorAnalyzer) (info : TrackInfo) (f : ScenarioFrame)
    (hact : tm.active_tracks = [(tid, info)]) (hts : info.timestamp = tlast)
    (hto : tm.track_timeout_seconds = timeout)
    (htr : (dictLookup ba.tracked_objects tid).isSome = true)
    (hdet : ∀ d, f.det = some d → d.object_id = tid)
    (hgap : f.det = none → f.time - tlast ≤ timeout) :
    countAppeared (frameStep tm ba { detections := f.det.toList, frame_num := f.fnum } f.time).2.2 tid = 0 ∧
    ∃ info' : TrackInfo,
      (frameStep tm ba { detections := f.det.toList, frame_num := f.fnum } f.time).1.active_tracks = [(tid, info')] ∧
      (f.det = none → info'.timestamp = tlast) ∧
      (∀ d, f.det = some d → info'.timestamp = f.time) ∧
      (frameStep tm ba { detections := f.det.toList, frame_num := f.fnum } f.time).1.track_timeout_seconds = timeout ∧
      (dictLookup (frameStep tm ba { detections := f.det.toList, frame_num := f.fnum } f.time).2.1.tracked_objects tid).isSome = true := by
  rcases hf : f.det with _ | d
  · have htm : tm.update_tracks { detections := [], frame_num := f.fnum } f.time = tm := by
      have hfresh : ∀ tid' info', dictLookup tm.active_tracks tid' = some info' →
          ¬ tm.track_timeout_seconds < f.time - info'.timestamp := by
        intro tid' info' hl
        rw [hact] at hl
        simp only [dictLookup] at hl
        split at hl
        · cases hl
          rw [hto, hts]
          exact not_lt.mpr (hgap hf)
        · simp [dictLookup] at hl
      simp only [TrackingManager.update_tracks, TrackingManager.update_loop,
        TrackingManager.check_lost_tracks]
      exact check_lost_loop_fresh f.time _ tm hfresh
    have hana := c3_analyze tid tm ba f.time info hact htr
    constructor
    · show countAppeared
        (ba.analyze_frame (tm.update_tracks { detections := Option.toList (none : Option Detection), frame_num := f.fnum } f.time) f.time).2 tid = 0
      rw [show Option.toList (none : Option Detection) = [] from rfl, htm]
      exact hana.1
    · refine ⟨info, ?_, fun _ => hts, ?_, ?_, ?_⟩
      · show (tm.update_tracks { detections := Option.toList (none : Option Detection), frame_num := f.fnum } f.time).active_tracks = [(tid, info)]
        rw [show Option.toList (none : Option Detection) = [] from rfl, htm]
        exact hact
      · intro d hd
        exact Option.noConfusion hd
      · show (tm.update_tracks { detections := Option.toList (none : Option Detection), frame_num := f.fnum } f.time).track_timeout_seconds = timeout
        rw [show Option.toList (none : Option Detection) = [] from rfl, htm]
        exact hto
      · show (dictLookup
          (ba.analyze_frame (tm.update_tracks { detections := Option.toList (none : Option Detection), frame_num := f.fnum } f.time) f.time).1.tracked_objects tid).isSome = true
        rw [show Option.toList (none : Option Detection) = [] from rfl, htm]
        exact hana.2
  · have hid : d.object_id = tid := hdet d hf
    have hact1 : (tm.update_track d.object_id (d.toTrackInfo f.time f.fnum)).active_tracks =
        [(tid, d.toTrackInfo f.time f.fnum)] := by
      rw [update_track_active_eq, hact, hid]
      simp [dictInsert]
    have htm : tm.update_tracks { detections := [d], frame_num := f.fnum } f.time =
        tm.update_track d.object_id (d.toTrackInfo f.time f.fnum) := by
      simp only [TrackingManager.update_tracks, TrackingManager.update_loop,
        TrackingManager.check_lost_tracks]
      rw [hact1]
      simp [hid, TrackingManager.check_lost_loop]
    have hact' : (tm.update_tracks { detections := [d], frame_num := f.fnum } f.time).active_tracks =
        [(tid, d.toTrackInfo f.time f.fnum)] := by rw [htm]; exact hact1
    have hana := c3_analyze tid
      (tm.update_tracks { detections := [d], frame_num := f.fnum } f.time) ba f.time
      (d.toTrackInfo f.time f.fnum) hact' htr
    constructor
    · show countAppeared
        (ba.analyze_frame (tm.update_tracks { detections := Option.toList (some d), frame_num := f.fnum } f.time) f.time).2 tid = 0
      rw [show Option.toList (some d) = [d] from rfl]
      exact hana.1
    · refine ⟨d.toTrackInfo f.time f.fnum, ?_, ?_, fun _ _ => rfl, ?_, ?_⟩
      · show (tm.update_tracks { detections := Option.toList (some d), frame_num := f.fnum } f.time).active_tracks = _
        rw [show Option.toList (some d) = [d] from rfl]
        exact hact'
      · intro hd
        exact Option.noConfusion hd
      · show (tm.update_tracks { detections := Option.toList (some d), frame_num := f.fnum } f.time).track_timeout_seconds = timeout
        rw [show Option.toList (some d) = [d] from rfl, htm, update_track_timeout]
        exact hto
      · show (dictLookup
          (ba.analyze_frame (tm.update_tracks { detections := Option.toList (some d), frame_num := f.fnum } f.time) f.time).1.tracked_objects tid).isSome = true
        rw [show Option.toList (some d) = [d] from rfl]
        exact hana.2

theorem c3_run (tid : Nat) (timeout : ℚ) (frames : List ScenarioFrame) :
    ∀ (tlast : ℚ) (tm : TrackingManager) (ba : BehaviorAnalyzer) (info : TrackInfo),
      tm.active_tracks = [(tid, info)] → info.timestamp = tlast →
      tm.track_timeout_seconds = timeout →
      (dictLookup ba.tracked_objects tid).isSome = true →
      scenarioOk tid timeout tlast frames = true →
      countAppeared (systemRun tm ba frames).2.2 tid = 0 := by
  induction frames with
  | nil => intro tlast tm ba info _ _ _ _ _; rfl
  | cons f rest ih =>
    intro tlast tm ba info hact hts hto htr hok
    simp only [scenarioOk] at hok
    rcases hf : f.det with _ | d <;> rw [hf] at hok <;>
      simp only [Bool.and_eq_true, decide_eq_true_eq] at hok
    · obtain ⟨h1, h2⟩ := hok
      obtain ⟨hc0, info', hact', hnone, hsome, hto', htr'⟩ :=
        c3_step tid timeout tlast tm ba info f hact hts hto htr
          (fun d hd => by rw [hf] at hd; exact Option.noConfusion hd)
          (fun _ => h1)
      show countAppeared
        ((frameStep tm ba { detections := f.det.toList, frame_num := f.fnum } f.time).2.2 ++
          (systemRun (frameStep tm ba { detections := f.det.toList, frame_num := f.fnum } f.time).1
            (frameStep tm ba { detections := f.det.toList, frame_num := f.fnum } f.time).2.1 rest).2.2) tid = 0
      rw [countAppeared_append, hc0]
      rw [ih tlast _ _ info' hact' (hnone hf) hto' htr' h2]
    · obtain ⟨h1, h2⟩ := hok
      obtain ⟨hc0, info', hact', hnone, hsome, hto', htr'⟩ :=
        c3_step tid timeout tlast tm ba info f hact hts hto htr
          (fun d' hd' => by rw [hf] at hd'; cases hd'; exact h1)
          (fun hn => by rw [hf] at hn; exact Option.noConfusion hn)
      show countAppeared
        ((frameStep tm ba { detections := f.det.toList, frame_num := f.fnum } f.time).2.2 ++
          (systemRun (frameStep tm ba { detections := f.det.toList, frame_num := f.fnum } f.time).1
            (frameStep tm ba { detections := f.det.toList, frame_num := f.fnum } f.time).2.1 rest).2.2) tid = 0
      rw [countAppeared_append, hc0]
      rw [ih f.time _ _ info' hact' (hsome d hf) hto' htr' h2]

theorem c3_first_obs (tid maxHist : Nat) (timeout : ℚ) (cfg : BAConfig)
    (d : Detection) (t0 : ℚ) (fnum : Nat)
    (hid : d.object_id = tid) (hconf : cfg.min_confidence ≤ d.confidence)
    (hdeb : cfg.debounce_seconds ≤ t0) :
    countAppeared (frameStep (TrackingManager.init maxHist timeout)
      (BehaviorAnalyzer.init cfg) { detections := [d], frame_num := fnum } t0).2.2 tid = 1 ∧
    ∃ info' : TrackInfo,
      (frameStep (TrackingManager.init maxHist timeout)
        (BehaviorAnalyzer.init cfg) { detections := [d], frame_num := fnum } t0).1.active_tracks = [(tid, info')] ∧
      info'.timestamp = t0 ∧
      (frameStep (TrackingManager.init maxHist timeout)
        (BehaviorAnalyzer.init cfg) { detections := [d], frame_num := fnum } t0).1.track_timeout_seconds = timeout ∧
      (dictLookup (frameStep (TrackingManager.init maxHist timeout)
        (BehaviorAnalyzer.init cfg) { detections := [d], frame_num := fnum } t0).2.1.tracked_objects tid).isSome = true := by
  subst hid
  have hc1 : ¬ (d.toTrackInfo t0 fnum).confidence < cfg.min_confidence :=
    not_lt.mpr hconf
  have hc2 : ¬ t0 < cfg.debounce_seconds := not_lt.mpr hdeb
  have hupd : (TrackingManager.init maxHist timeout).update_track d.object_id
      (d.toTrackInfo t0 fnum) =
      { active_tracks := [(d.object_id, d.toTrackInfo t0 fnum)],
        track_history := [(d.object_id, [(d.toTrackInfo t0 fnum).toSample])],
        lost_tracks := [], max_track_history := maxHist,
        track_timeout_seconds := timeout } := by
    simp only [TrackingManager.update_track, TrackingManager.init]
    norm_num [dictLookup, dictInsert]
    intro h
    subst h
    simp [pySuffix]
  have htm : (TrackingManager.init maxHist timeout).update_tracks
      { detections := [d], frame_num := fnum } t0 =
      { active_tracks := [(d.object_id, d.toTrackInfo t0 fnum)],
        track_history := [(d.object_id, [(d.toTrackInfo t0 fnum).toSample])],
        lost_tracks := [], max_track_history := maxHist,
        track_timeout_seconds := timeout } := by
    simp only [TrackingManager.update_tracks, TrackingManager.update_loop,
      TrackingManager.check_lost_tracks, hupd]
    simp [TrackingManager.check_lost_loop]
  constructor
  · show countAppeared
      ((BehaviorAnalyzer.init cfg).analyze_frame
        ((TrackingManager.init maxHist timeout).update_tracks
          { detections := [d], frame_num := fnum } t0) t0).2 d.object_id = 1
    rw [htm]
    simp [BehaviorAnalyzer.analyze_frame,
      BehaviorAnalyzer.check_object_appearances,
      BehaviorAnalyzer.check_appearances_loop,
      BehaviorAnalyzer.check_appearance_one, BehaviorAnalyzer.emit_state,
      BehaviorAnalyzer.check_static_objects, BehaviorAnalyzer.check_static_loop,
      BehaviorAnalyzer.check_static_one, BehaviorAnalyzer.check_moving_objects,
      BehaviorAnalyzer.check_moving_loop, BehaviorAnalyzer.check_moving_one,
      BehaviorAnalyzer.update_object_states, BehaviorAnalyzer.refresh_states_loop,
      BehaviorAnalyzer.remove_inactive_loop, BehaviorAnalyzer.cleanup_old_events,
      TrackingManager.get_active_tracks, TrackingManager.get_track_info,
      TrackingManager.is_track_static, TrackingManager.get_track_duration,
      BehaviorAnalyzer.init, dictLookup, dictInsert, dictErase, pySuffix,
      hc1, hc2, countAppeared, create_appearance_event]
  · refine ⟨d.toTrackInfo t0 fnum, ?_, rfl, ?_, ?_⟩
    · show ((TrackingManager.init maxHist timeout).update_tracks
        { detections := [d], frame_num := fnum } t0).active_tracks = _
      rw [htm]
    · show ((TrackingManager.init maxHist timeout).update_tracks
        { detections := [d], frame_num := fnum } t0).track_timeout_seconds = timeout
      rw [htm]
    · show (dictLookup ((BehaviorAnalyzer.init cfg).analyze_frame
        ((TrackingManager.init maxHist timeout).update_tracks
          { detections := [d], frame_num := fnum } t0) t0).1.tracked_objects d.object_id).isSome = true
      rw [htm]
      simp [BehaviorAnalyzer.analyze_frame,
        BehaviorAnalyzer.check_object_appearances,
        BehaviorAnalyzer.check_appearances_loop,
        BehaviorAnalyzer.check_appearance_one, BehaviorAnalyzer.emit_state,
        BehaviorAnalyzer.check_static_objects, BehaviorAnalyzer.check_static_loop,
        BehaviorAnalyzer.check_static_one, BehaviorAnalyzer.check_moving_objects,
        BehaviorAnalyzer.check_moving_loop, BehaviorAnalyzer.check_moving_one,
        BehaviorAnalyzer.update_object_states, BehaviorAnalyzer.refresh_states_loop,
        BehaviorAnalyzer.remove_inactive_loop, BehaviorAnalyzer.cleanup_old_events,
        TrackingManager.get_active_tracks, TrackingManager.get_track_info,
        TrackingManager.is_track_static, TrackingManager.get_track_duration,
        BehaviorAnalyzer.init, dictLookup, dictInsert, dictErase, pySuffix,
        hc1, hc2]

theorem c3_pre_run (maxHist : Nat) (timeout : ℚ) (cfg : BAConfig)
    (frames : List ScenarioFrame) (h : ∀ f ∈ frames, f.det = none) :
    systemRun (TrackingManager.init maxHist timeout) (BehaviorAnalyzer.init cfg) frames =
      (TrackingManager.init maxHist timeout, BehaviorAnalyzer.init cfg, []) := by
  induction frames with
  | nil => rfl
  | cons f rest ih =>
    have hf : f.det = none := h f (List.mem_cons_self f rest)
    have hstep : frameStep (TrackingManager.init maxHist timeout)
        (BehaviorAnalyzer.init cfg)
        { detections := f.det.toList, frame_num := f.fnum } f.time =
        (TrackingManager.init maxHist timeout, BehaviorAnalyzer.init cfg, []) := by
      rw [hf]
      rfl
    simp [systemRun, hstep, ih (fun g hg => h g (List.mem_cons_of_mem f hg))]

/-- C3 counterexample: with the default configuration (debounceSeconds 2)
and a first observation at wall-clock time 1, the appearance debounce map's
default of 0 makes 1 - 0 < 2 suppress the event, and the id enters
tracked_objects anyway, so the run emits zero `appeared` events instead of
exactly one on the first observation. -/
theorem c3_counterexample :
    countAppeared (systemRun TrackingManager.initDefault
      (BehaviorAnalyzer.init defaultBAConfig)
      [{ det := some c3Det, time := 1, fnum := 0 }]).2.2 1 = 0 := by
  norm_num [systemRun, frameStep, countAppeared, c3Det,
    TrackingManager.initDefault, TrackingManager.init, defaultBAConfig,
    BehaviorAnalyzer.init, TrackingManager.update_tracks,
    TrackingManager.update_loop, TrackingManager.update_track,
    TrackingManager.check_lost_tracks, TrackingManager.check_lost_loop,
    Detection.toTrackInfo, TrackInfo.toSample, BehaviorAnalyzer.analyze_frame,
    BehaviorAnalyzer.check_object_appearances,
    BehaviorAnalyzer.check_appearances_loop,
    BehaviorAnalyzer.check_appearance_one, BehaviorAnalyzer.emit_state,
    BehaviorAnalyzer.check_static_objects, BehaviorAnalyzer.check_static_loop,
    BehaviorAnalyzer.check_static_one, BehaviorAnalyzer.check_moving_objects,
    BehaviorAnalyzer.check_moving_loop, BehaviorAnalyzer.check_moving_one,
    BehaviorAnalyzer.update_object_states, BehaviorAnalyzer.refresh_states_loop,
    BehaviorAnalyzer.remove_inactive_loop, BehaviorAnalyzer.cleanup_old_events,
    TrackingManager.get_active_tracks, TrackingManager.get_track_info,
    TrackingManager.is_track_static, TrackingManager.get_track_duration,
    dictLookup, dictInsert, dictErase, pySuffix]

/-- C3 amended: in a single-id scenario started from the initial states, if
every observation has confidence ≥ minConfidence, every frame processed
during an observation gap is within trackTimeoutSeconds of the last
observation, and the first observation occurs at a wall-clock time at
least debounceSeconds (true for real clocks; the debounce map defaults to
0), then exactly one `appeared` event is emitted for the id over the whole
run, and it is emitted on the frame of the first observation. -/
theorem c3_appeared_exactly_once (tid maxHist : Nat) (timeout : ℚ)
    (cfg : BAConfig) (pre : List ScenarioFrame) (sf : ScenarioFrame)
    (rest : List ScenarioFrame) (d : Detection)
    (hpre : ∀ f ∈ pre, f.det = none)
    (hsf : sf.det = some d) (hid : d.object_id = tid)
    (hconf : cfg.min_confidence ≤ d.confidence)
    (hdeb : cfg.debounce_seconds ≤ sf.time)
    (hrest : scenarioOk tid timeout sf.time rest = true) :
    countAppeared (systemRun (TrackingManager.init maxHist timeout)
      (BehaviorAnalyzer.init cfg) (pre ++ sf :: rest)).2.2 tid = 1 ∧
    countAppeared (frameStep (TrackingManager.init maxHist timeout)
      (BehaviorAnalyzer.init cfg) { detections := [d], frame_num := sf.fnum } sf.time).2.2 tid = 1 := by
  have hfirst := c3_first_obs tid maxHist timeout cfg d sf.time sf.fnum hid hconf hdeb
  refine ⟨?_, hfirst.1⟩
  revert hpre
  induction pre with
  | nil =>
    intro _
    have hdl : sf.det.toList = [d] := by rw [hsf]; rfl
    show countAppeared
      ((frameStep (TrackingManager.init maxHist timeout) (BehaviorAnalyzer.init cfg)
          { detections := sf.det.toList, frame_num := sf.fnum } sf.time).2.2 ++
        (systemRun
          (frameStep (TrackingManager.init maxHist timeout) (BehaviorAnalyzer.init cfg)
            { detections := sf.det.toList, frame_num := sf.fnum } sf.time).1
          (frameStep (TrackingManager.init maxHist timeout) (BehaviorAnalyzer.init cfg)
            { detections := sf.det.toList, frame_num := sf.fnum } sf.time).2.1
          rest).2.2) tid = 1
    rw [hdl, countAppeared_append, hfirst.1]
    obtain ⟨info', hact', hts', hto', htr'⟩ := hfirst.2
    rw [c3_run tid timeout rest sf.time _ _ info' hact' hts' hto' htr' hrest]
  | cons g pre' ih =>
    intro hpre
    have hg : g.det = none := hpre g (List.mem_cons_self g pre')
    have hstep : frameStep (TrackingManager.init maxHist timeout)
        (BehaviorAnalyzer.init cfg)
        { detections := g.det.toList, frame_num := g.fnum } g.time =
        (TrackingManager.init maxHist timeout, BehaviorAnalyzer.init cfg, []) := by
      rw [hg]
      rfl
    have hrest' := ih (fun f hf => hpre f (List.mem_cons_of_mem g hf))
    simp only [List.cons_append, systemRun, hstep]
    simpa using hrest'

/-- Witness for C3 (amended): a three-frame scenario — observation at
time 5, a gap frame at time 6, another observation at time 7 — emits
exactly one appeared event for id 1, on the first observation frame. -/
theorem c3_appeared_exactly_once_witness :
    countAppeared (systemRun (TrackingManager.init 100 30)
      (BehaviorAnalyzer.init defaultBAConfig)
      ([] ++ ({ det := some c3Det, time := 5, fnum := 0 } : ScenarioFrame) ::
        [{ det := none, time := 6, fnum := 1 },
         { det := some c3Det, time := 7, fnum := 2 }])).2.2 1 = 1 ∧
    countAppeared (frameStep (TrackingManager.init 100 30)
      (BehaviorAnalyzer.init defaultBAConfig)
      { detections := [c3Det], frame_num := 0 } 5).2.2 1 = 1 :=
  c3_appeared_exactly_once 1 100 30 defaultBAConfig []
    { det := some c3Det, time := 5, fnum := 0 }
    [{ det := none, time := 6, fnum := 1 },
     { det := some c3Det, time := 7, fnum := 2 }] c3Det
    (by simp) rfl rfl (by norm_num [defaultBAConfig, c3Det])
    (by norm_num [defaultBAConfig]) (by norm_num [scenarioOk, c3Det])

theorem countMoving_append (a b : List BehaviorEvent) (t : Nat) :
    countMoving (a ++ b) t = countMoving a t + countMoving b t := by
  simp [countMoving, List.filter_append]

theorem countMoving_eq_zero (a : List BehaviorEvent) (t : Nat)
    (h : ∀ ev ∈ a, ev.event_type ≠ EventType.object_moving) :
    countMoving a t = 0 := by
  simp only [countMoving, List.length_eq_zero]
  apply List.filter_eq_nil_iff.mpr
  intro ev hev
  simp only [decide_eq_true_eq, not_and]
  intro hty
  exact absurd hty (h ev hev)

/-- C2: in any analysis pass, (a) a `moving` event for an id can only be
emitted when, at the moving check, the id carries a static-event stamp
(last_static_events), the shorter 10-sample staticness re-test is false and
the debounceSeconds window since the last moving emission has elapsed, and
the emission clears the id's static stamp in the final state; (b) the
static stamp present at the moving check exists only because it was there
before the pass or because a `static` event for the id was emitted in this
very pass; (c) at most one `moving` event per id fires per pass.  Together
these give the claim: no second `moving` can fire until a new `static`
event re-stamps the id. -/
theorem c2_moving_event_guard (ba : BehaviorAnalyzer) (tm : TrackingManager)
    (now : ℚ) (tid : Nat) :
    (∀ ev ∈ (ba.analyze_frame tm now).2,
      ev.event_type = EventType.object_moving → ev.tracking_id = tid →
      ((dictLookup ((ba.check_object_appearances tm.get_active_tracks now).1.check_static_objects
          tm now).1.last_static_events tid).isSome = true ∧
       tm.is_track_static tid ba.config.position_tolerance_pixels 10 = false ∧
       ba.config.debounce_seconds ≤
         now - (dictLookup ((ba.check_object_appearances tm.get_active_tracks now).1.check_static_objects
           tm now).1.last_moving_events tid).getD 0 ∧
       dictLookup (ba.analyze_frame tm now).1.last_static_events tid = none)) ∧
    ((dictLookup ((ba.check_object_appearances tm.get_active_tracks now).1.check_static_objects
        tm now).1.last_static_events tid).isSome = true →
      (dictLookup ba.last_static_events tid).isSome = true ∨
      ∃ ev ∈ (ba.analyze_frame tm now).2,
        ev.event_type = EventType.object_static ∧ ev.tracking_id = tid) ∧
    countMoving (ba.analyze_frame tm now).2 tid ≤ 1 := by
  rcases hp1 : BehaviorAnalyzer.check_appearances_loop now tm.active_tracks ba
    with ⟨ba1, evs1⟩
  rcases hp2 : BehaviorAnalyzer.check_static_loop tm now
      (tm.active_tracks.map Prod.fst) ba1 with ⟨ba2, evs2⟩
  rcases hp3 : BehaviorAnalyzer.check_moving_loop tm now
      (tm.active_tracks.map Prod.fst) ba2 with ⟨ba3, evs3⟩
  have hba2eq : ((ba.check_object_appearances tm.get_active_tracks now).1.check_static_objects
      tm now).1 = ba2 := by
    simp only [BehaviorAnalyzer.check_object_appearances,
      BehaviorAnalyzer.check_static_objects, TrackingManager.get_active_tracks,
      hp1, hp2]
  have hevs : (ba.analyze_frame tm now).2 = evs1 ++ evs2 ++ evs3 := by
    simp only [BehaviorAnalyzer.analyze_frame,
      BehaviorAnalyzer.check_object_appearances,
      BehaviorAnalyzer.check_static_objects,
      BehaviorAnalyzer.check_moving_objects, TrackingManager.get_active_tracks,
      hp1, hp2, hp3]
  have hstate : (ba.analyze_frame tm now).1 =
      BehaviorAnalyzer.cleanup_old_events
        (BehaviorAnalyzer.update_object_states ba3 tm.active_tracks now) 1000 := by
    simp only [BehaviorAnalyzer.analyze_frame,
      BehaviorAnalyzer.check_object_appearances,
      BehaviorAnalyzer.check_static_objects,
      BehaviorAnalyzer.check_moving_objects, TrackingManager.get_active_tracks,
      hp1, hp2, hp3]
  have happ1 := app_loop_fields now tm.active_tracks ba
  rw [hp1] at happ1
  simp only at happ1
  have hst2 := static_loop_fields tm now (tm.active_tracks.map Prod.fst) ba1
  rw [hp2] at hst2
  simp only at hst2
  have hcfg2 : ba2.config = ba.config := by rw [hst2.2.2.2, happ1.2.2.2]
  have htypes1 : ∀ ev ∈ evs1, ev.event_type = EventType.object_appeared := by
    intro ev hev
    exact app_loop_types now tm.active_tracks ba ev (by rw [hp1]; exact hev)
  have htypes2 : ∀ ev ∈ evs2, ev.event_type = EventType.object_static := by
    intro ev hev
    exact (static_loop_spec tm now (tm.active_tracks.map Prod.fst) ba1).1 ev
      (by rw [hp2]; exact hev)
  have hmv := moving_loop_spec tm now (tm.active_tracks.map Prod.fst) ba2
  rw [hp3] at hmv
  simp only at hmv
  have hlastfin : ∀ t, dictLookup ba3.last_static_events t = none →
      dictLookup (ba.analyze_frame tm now).1.last_static_events t = none := by
    intro t ht
    rw [hstate, (cleanup_fields _ 1000).2.2.1]
    simp only [BehaviorAnalyzer.update_object_states]
    obtain ⟨_, q2, q3, _⟩ := remove_loop_removes
      (((BehaviorAnalyzer.refresh_states_loop now tm.active_tracks ba3).tracked_objects.filter
          fun e => decide ((dictLookup tm.active_tracks e.1).isNone) &&
            decide ((10 : ℚ) < now - e.2.last_seen)).map Prod.fst) t
      (BehaviorAnalyzer.refresh_states_loop now tm.active_tracks ba3)
    apply q3
    right
    rw [(refresh_loop_fields now tm.active_tracks ba3).2.1]
    exact ht
  refine ⟨?_, ?_, ?_⟩
  · intro ev hev hty hid
    rw [hevs] at hev
    rcases List.mem_append.mp hev with hev12 | hev3
    · rcases List.mem_append.mp hev12 with hev1 | hev2
      · rw [htypes1 ev hev1] at hty
        cases hty
      · rw [htypes2 ev hev2] at hty
        cases hty
    · obtain ⟨_, hflag, hstat, hdeb, hend⟩ := hmv.1 ev hev3
      rw [hid] at hflag hstat hdeb hend
      rw [hba2eq]
      refine ⟨hflag, by rwa [hcfg2] at hstat, by rwa [hcfg2] at hdeb, ?_⟩
      exact hlastfin tid hend
  · rw [hba2eq]
    intro hsome
    have := (static_loop_spec tm now (tm.active_tracks.map Prod.fst) ba1).2 tid
    rw [hp2] at this
    simp only at this
    rcases this hsome with h1 | ⟨ev, hev, hty, hid⟩
    · rw [happ1.2.1] at h1
      exact Or.inl h1
    · refine Or.inr ⟨ev, ?_, hty, hid⟩
      rw [hevs]
      exact List.mem_append.mpr (Or.inl (List.mem_append.mpr (Or.inr hev)))
  · rw [hevs, countMoving_append, countMoving_append]
    have h1 : countMoving evs1 tid = 0 :=
      countMoving_eq_zero evs1 tid
        (fun ev hev => by rw [htypes1 ev hev]; intro hcon; cases hcon)
    have h2 : countMoving evs2 tid = 0 :=
      countMoving_eq_zero evs2 tid
        (fun ev hev => by rw [htypes2 ev hev]; intro hcon; cases hcon)
    rw [h1, h2]
    simpa using hmv.2.2 tid

/-- Witness for C2 at a concrete pass in which a moving event actually
fires for id 7: the guard conditions and the stamp clearance hold there. -/
theorem c2_moving_event_guard_witness :
    (dictLookup ((c2Ba.check_object_appearances c2Tm.get_active_tracks 100).1.check_static_objects
        c2Tm 100).1.last_static_events 7).isSome = true ∧
    c2Tm.is_track_static 7 c2Ba.config.position_tolerance_pixels 10 = false ∧
    c2Ba.config.debounce_seconds ≤
      100 - (dictLookup ((c2Ba.check_object_appearances c2Tm.get_active_tracks 100).1.check_static_objects
        c2Tm 100).1.last_moving_events 7).getD 0 ∧
    dictLookup (c2Ba.analyze_frame c2Tm 100).1.last_static_events 7 = none :=
  (c2_moving_event_guard c2Ba c2Tm 100 7).1 (create_moving_event 7 c2Info 100)
    (by norm_num [BehaviorAnalyzer.analyze_frame,
      BehaviorAnalyzer.check_object_appearances,
      BehaviorAnalyzer.check_appearances_loop,
      BehaviorAnalyzer.check_appearance_one,
      BehaviorAnalyzer.check_static_objects, BehaviorAnalyzer.check_static_loop,
      BehaviorAnalyzer.check_static_one,
      BehaviorAnalyzer.check_moving_objects, BehaviorAnalyzer.check_moving_loop,
      BehaviorAnalyzer.check_moving_one, BehaviorAnalyzer.emit_state,
      BehaviorAnalyzer.update_object_states, BehaviorAnalyzer.refresh_states_loop,
      BehaviorAnalyzer.remove_inactive_loop, BehaviorAnalyzer.cleanup_old_events,
      TrackingManager.get_active_tracks, TrackingManager.get_track_info,
      TrackingManager.is_track_static, TrackingManager.get_track_duration,
      c2Ba, c2Tm, c2Info, c2Hist, defaultBAConfig, create_moving_event,
      dictLookup, dictInsert, dictErase, pySuffix, distSq])
    rfl rfl

/-- Witness for C9 (amended): at time 10 the same one-track store is fresh,
so the empty frame is a strict no-op. -/
theorem c9_empty_frame_witness :
    (c9Store.update_tracks { detections := [], frame_num := 5 } 10).track_history =
      c9Store.track_history ∧
    c9Store.update_tracks { detections := [], frame_num := 5 } 10 = c9Store := by
  have h := c9_empty_frame c9Store 5 10
  refine ⟨h.1, h.2 ?_⟩
  intro tid info hl
  simp only [c9Store, dictLookup] at hl
  split at hl
  · cases hl
    norm_num [exInfo1, c9Store]
  · simp [dictLookup] at hl

end DSDemo

